import Mathlib

/-!
# Aspeed SGPIO master driver (drivers/gpio/sgpio-aspeed.c)

A shallow embedding of the driver's pin and interrupt operations.

* C `unsigned int` / `u32` values are natural numbers; a value that is stored
  in a `u32` is reduced modulo `2 ^ 32` at the store.
* The register window behind `gpio->base` is a function from byte offsets to
  32-bit words, together with the list of accesses made so far.
* A pointer into `aspeed_sgpio_banks` is an `Option`: `none` is a pointer
  outside the table, and dereferencing it has no defined result (`none`).
* The spinlock only orders concurrent callers; a single caller is modelled, so
  taking and releasing it has no effect here.
-/

namespace SgpioAspeed

/-! ## Data model -/

/-- Capability override entry, `struct aspeed_bank_props`. -/
structure aspeed_bank_props where
  bank : Nat
  input : Nat
  output : Nat
deriving DecidableEq

/-- Device configuration, `struct aspeed_sgpio_config`; `props` is the array
the C pointer refers to, in order. -/
structure aspeed_sgpio_config where
  nr_pgpios : Nat
  nr_gpios : Nat
  props : List aspeed_bank_props

/-- Register window descriptor, `struct aspeed_sgpio_bank`. -/
structure aspeed_sgpio_bank where
  val_reg : Nat
  rdata_reg : Nat
  tolerance_reg : Nat
  irq_regs : Nat
  support_irq : Bool
  names : List String
deriving DecidableEq

/-- The bank table of the driver, in source order. -/
def aspeed_sgpio_banks : List aspeed_sgpio_bank :=
  [ { val_reg := 0x0000, rdata_reg := 0x0070, tolerance_reg := 0x0018,
      irq_regs := 0x0004, support_irq := false, names := ["OA", "OB", "OC", "OD"] },
    { val_reg := 0x001C, rdata_reg := 0x0074, tolerance_reg := 0x0034,
      irq_regs := 0x0020, support_irq := false, names := ["OE", "OF", "OG", "OH"] },
    { val_reg := 0x0038, rdata_reg := 0x0078, tolerance_reg := 0x0050,
      irq_regs := 0x003C, support_irq := false, names := ["OI", "OJ"] },
    { val_reg := 0x0000, rdata_reg := 0x0070, tolerance_reg := 0x0018,
      irq_regs := 0x0004, support_irq := true, names := ["IA", "IB", "IC", "ID"] },
    { val_reg := 0x001C, rdata_reg := 0x0074, tolerance_reg := 0x0034,
      irq_regs := 0x0020, support_irq := true, names := ["IE", "IF", "IG", "IH"] },
    { val_reg := 0x0038, rdata_reg := 0x0078, tolerance_reg := 0x0050,
      irq_regs := 0x003C, support_irq := true, names := ["II", "IJ"] } ]

/-- Register roles, `enum aspeed_sgpio_reg`. -/
inductive aspeed_sgpio_reg where
  | reg_val
  | reg_rdata
  | reg_irq_enable
  | reg_irq_type0
  | reg_irq_type1
  | reg_irq_type2
  | reg_irq_status
  | reg_tolerance
deriving DecidableEq

def GPIO_IRQ_ENABLE : Nat := 0x00
def GPIO_IRQ_TYPE0 : Nat := 0x04
def GPIO_IRQ_TYPE1 : Nat := 0x08
def GPIO_IRQ_TYPE2 : Nat := 0x0c
def GPIO_IRQ_STATUS : Nat := 0x10

/-- Flow handlers that can be bound to a virtual interrupt line. -/
inductive irq_flow_handler_t where
  | handle_bad_irq
  | handle_edge_irq
  | handle_level_irq
deriving DecidableEq

/-- One access to the register window: a 32-bit read of a byte offset, or a
32-bit write of a word to a byte offset. -/
inductive RegAccess where
  | rd (addr : Nat)
  | wr (val : Nat) (addr : Nat)
deriving DecidableEq

/-- Controller instance, `struct aspeed_sgpio`, with what it points to:
`regs` is the register window behind `base` (the word a read of each byte
offset returns), `trace` the accesses made so far, oldest first, and `handler`
the flow handler bound to each of the chip's interrupt lines (by hwirq). -/
structure aspeed_sgpio where
  config : aspeed_sgpio_config
  regs : Nat → Nat
  trace : List RegAccess
  handler : Nat → irq_flow_handler_t

/-! ## Kernel constants used by the driver -/

/-- Errno `ENOTSUPP` of include/linux/errno.h. -/
def ENOTSUPP : Int := 524

/-- Errno `EINVAL` of include/uapi/asm-generic/errno-base.h. -/
def EINVAL : Int := 22

/-- Trigger kinds of include/linux/irq.h. -/
def IRQ_TYPE_EDGE_RISING : Nat := 0x1
def IRQ_TYPE_EDGE_FALLING : Nat := 0x2
def IRQ_TYPE_EDGE_BOTH : Nat := IRQ_TYPE_EDGE_FALLING ||| IRQ_TYPE_EDGE_RISING
def IRQ_TYPE_LEVEL_HIGH : Nat := 0x4
def IRQ_TYPE_LEVEL_LOW : Nat := 0x8
def IRQ_TYPE_SENSE_MASK : Nat := 0xf

/-- `BIT(n)` of include/linux/bits.h. -/
def BIT (n : Nat) : Nat := 1 <<< n

/-- Bitwise complement of a word within 32 bits (C `~` followed by the store
into a `u32`). -/
def not32 (x : Nat) : Nat := 0xffffffff ^^^ (x % 2 ^ 32)

/-! ## Register access -/

/-- The word a write leaves readable in the window, as the driver documents
the hardware: a write to a bank's `val` offset drives the line and lands in the
write latch, which is read back at the bank's `rdata` offset (the `val` offset
itself keeps returning the level sampled on the line); a write to an
interrupt-status offset clears the bits written as one; any other offset
stores the word. -/
def hw_store (regs : Nat → Nat) (val addr : Nat) : Nat → Nat :=
  match aspeed_sgpio_banks.find? (fun b => b.val_reg == addr) with
  | some b => fun a => if a = b.rdata_reg then val else regs a
  | none =>
    if aspeed_sgpio_banks.any (fun b => b.irq_regs + GPIO_IRQ_STATUS == addr) then
      fun a => if a = addr then regs a % 2 ^ 32 &&& not32 val else regs a
    else
      fun a => if a = addr then val else regs a

/-- `ioread32(base + addr)`: the word read and the instance with the access
recorded. -/
def ioread32 (gpio : aspeed_sgpio) (addr : Nat) : Nat × aspeed_sgpio :=
  (gpio.regs addr % 2 ^ 32, { gpio with trace := gpio.trace ++ [RegAccess.rd addr] })

/-- `iowrite32(val, base + addr)`. -/
def iowrite32 (val addr : Nat) (gpio : aspeed_sgpio) : aspeed_sgpio :=
  { gpio with
    regs := hw_store gpio.regs (val % 2 ^ 32) addr
    trace := gpio.trace ++ [RegAccess.wr (val % 2 ^ 32) addr] }

/-! ## Bank table and capability lookup -/

/-- `bank_reg` on a valid bank pointer: the byte offset from `gpio->base`. -/
def bank_reg (bank : aspeed_sgpio_bank) (reg : aspeed_sgpio_reg) : Nat :=
  match reg with
  | .reg_val => bank.val_reg
  | .reg_rdata => bank.rdata_reg
  | .reg_irq_enable => bank.irq_regs + GPIO_IRQ_ENABLE
  | .reg_irq_type0 => bank.irq_regs + GPIO_IRQ_TYPE0
  | .reg_irq_type1 => bank.irq_regs + GPIO_IRQ_TYPE1
  | .reg_irq_type2 => bank.irq_regs + GPIO_IRQ_TYPE2
  | .reg_irq_status => bank.irq_regs + GPIO_IRQ_STATUS
  | .reg_tolerance => bank.tolerance_reg

def GPIO_BANK (x : Nat) : Nat := x >>> 5
def GPIO_OFFSET (x : Nat) : Nat := x &&& 0x1f
def GPIO_BIT (x : Nat) : Nat := BIT (GPIO_OFFSET x)

/-- `to_bank`: the pointer `&aspeed_sgpio_banks[bank]`. -/
def to_bank (offset : Nat) : Option aspeed_sgpio_bank :=
  aspeed_sgpio_banks[GPIO_BANK offset]?

def is_bank_props_sentinel (props : aspeed_bank_props) : Bool :=
  !(props.input != 0 || props.output != 0)

/-- `find_bank_props` over the array `gpio->config->props`. The loop stops at
the first all-zero entry; the end of the list stands for the array's closing
all-zero entry. `none` is the NULL result. -/
def find_bank_props_in : List aspeed_bank_props → Nat → Option aspeed_bank_props
  | [], _ => none
  | props :: rest, offset =>
    if is_bank_props_sentinel props then none
    else if props.bank = GPIO_BANK offset then some props
    else find_bank_props_in rest offset

def find_bank_props (gpio : aspeed_sgpio) (offset : Nat) : Option aspeed_bank_props :=
  find_bank_props_in gpio.config.props offset

def have_input (gpio : aspeed_sgpio) (offset : Nat) : Bool :=
  match find_bank_props gpio offset with
  | none => true
  | some props => props.input &&& GPIO_BIT offset != 0

def have_output (gpio : aspeed_sgpio) (offset : Nat) : Bool :=
  match find_bank_props gpio offset with
  | none => true
  | some props => props.output &&& GPIO_BIT offset != 0

/-! ## Pin operations -/

/-- `aspeed_sgpio_get`: the value returned and the instance after the read. -/
def aspeed_sgpio_get (gpio : aspeed_sgpio) (offset : Nat) : Option (Int × aspeed_sgpio) :=
  let bank := to_bank offset
  let reg := if have_output gpio offset then aspeed_sgpio_reg.reg_rdata
    else aspeed_sgpio_reg.reg_val
  match bank with
  | none => none
  | some b =>
    let r := ioread32 gpio (bank_reg b reg)
    some (if r.1 &&& GPIO_BIT offset != 0 then 1 else 0, r.2)

/-- `aspeed_sgpio_set`. -/
def aspeed_sgpio_set (gpio : aspeed_sgpio) (offset : Nat) (val : Int) : Option aspeed_sgpio :=
  let bank := to_bank offset
  if !have_output gpio offset then some gpio
  else
    match bank with
    | none => none
    | some b =>
      let r := ioread32 gpio (bank_reg b aspeed_sgpio_reg.reg_rdata)
      let reg := if val ≠ 0 then (r.1 ||| GPIO_BIT offset) % 2 ^ 32
        else r.1 &&& not32 (GPIO_BIT offset)
      some (iowrite32 reg (bank_reg b aspeed_sgpio_reg.reg_val) r.2)

/-- `aspeed_sgpio_dir_in`. -/
def aspeed_sgpio_dir_in (gpio : aspeed_sgpio) (offset : Nat) : Int :=
  if !have_input gpio offset then -ENOTSUPP else 0

/-- `aspeed_sgpio_dir_out`. -/
def aspeed_sgpio_dir_out (gpio : aspeed_sgpio) (offset : Nat) (val : Int) :
    Option (Int × aspeed_sgpio) :=
  if !have_output gpio offset then some (-ENOTSUPP, gpio)
  else
    match aspeed_sgpio_set gpio offset val with
    | none => none
    | some g => some (0, g)

/-- `aspeed_sgpio_get_direction`. -/
def aspeed_sgpio_get_direction (gpio : aspeed_sgpio) (offset : Nat) : Int :=
  if have_output gpio offset then 0
  else if have_input gpio offset then 1
  else -ENOTSUPP

/-! ## Interrupt operations -/

/-- `irqd_to_aspeed_sgpio_data` on the line with hardware number `d`: the
return code, the bank pointer, the pin's bit and the offset. -/
def irqd_to_aspeed_sgpio_data (d : Nat) : Int × Option aspeed_sgpio_bank × Nat × Nat :=
  let offset := d
  (0, to_bank offset, GPIO_BIT offset, offset)

/-- `aspeed_sgpio_irq_set_mask`. -/
def aspeed_sgpio_irq_set_mask (gpio : aspeed_sgpio) (d : Nat) (set : Bool) :
    Option aspeed_sgpio :=
  match irqd_to_aspeed_sgpio_data d with
  | (rc, bank, bit, _) =>
    if rc ≠ 0 then some gpio
    else
      match bank with
      | none => none
      | some b =>
        if !b.support_irq then some gpio
        else
          let addr := bank_reg b aspeed_sgpio_reg.reg_irq_enable
          let r := ioread32 gpio addr
          let reg := if set then (r.1 ||| bit) % 2 ^ 32 else r.1 &&& not32 bit
          some (iowrite32 reg addr r.2)

def aspeed_sgpio_irq_mask (gpio : aspeed_sgpio) (d : Nat) : Option aspeed_sgpio :=
  aspeed_sgpio_irq_set_mask gpio d false

def aspeed_sgpio_irq_unmask (gpio : aspeed_sgpio) (d : Nat) : Option aspeed_sgpio :=
  aspeed_sgpio_irq_set_mask gpio d true

/-- The `switch` of `aspeed_sgpio_set_type` with its fall-throughs: the words
`type0`, `type1`, `type2` and the handler, or `none` for the default case. -/
def set_type_switch (type bit : Nat) : Option (Nat × Nat × Nat × irq_flow_handler_t) :=
  let sense := type &&& IRQ_TYPE_SENSE_MASK
  if sense = IRQ_TYPE_EDGE_BOTH then
    some (0 ||| bit, 0, 0 ||| bit, irq_flow_handler_t.handle_edge_irq)
  else if sense = IRQ_TYPE_EDGE_RISING then
    some (0 ||| bit, 0, 0, irq_flow_handler_t.handle_edge_irq)
  else if sense = IRQ_TYPE_EDGE_FALLING then
    some (0, 0, 0, irq_flow_handler_t.handle_edge_irq)
  else if sense = IRQ_TYPE_LEVEL_HIGH then
    some (0 ||| bit, 0 ||| bit, 0, irq_flow_handler_t.handle_level_irq)
  else if sense = IRQ_TYPE_LEVEL_LOW then
    some (0, 0 ||| bit, 0, irq_flow_handler_t.handle_level_irq)
  else none

/-- The read-modify-write `reg = (ioread32(addr) & ~bit) | t; iowrite32(reg, addr)`. -/
def rmw_type (gpio : aspeed_sgpio) (addr bit t : Nat) : aspeed_sgpio :=
  let r := ioread32 gpio addr
  iowrite32 ((r.1 &&& not32 bit) ||| t) addr r.2

/-- `aspeed_sgpio_set_type`. -/
def aspeed_sgpio_set_type (gpio : aspeed_sgpio) (d : Nat) (type : Nat) :
    Option (Int × aspeed_sgpio) :=
  match irqd_to_aspeed_sgpio_data d with
  | (rc, bank, bit, _) =>
    if rc ≠ 0 then some (-EINVAL, gpio)
    else
      match bank with
      | none => none
      | some b =>
        if !b.support_irq then some (-ENOTSUPP, gpio)
        else
          match set_type_switch type bit with
          | none => some (-EINVAL, gpio)
          | some (type0, type1, type2, handler) =>
            let g0 := rmw_type gpio (bank_reg b aspeed_sgpio_reg.reg_irq_type0) bit type0
            let g1 := rmw_type g0 (bank_reg b aspeed_sgpio_reg.reg_irq_type1) bit type1
            let g2 := rmw_type g1 (bank_reg b aspeed_sgpio_reg.reg_irq_type2) bit type2
            some (0, { g2 with handler := fun n => if n = d then handler else g2.handler n })

/-- `aspeed_sgpio_irq_ack`. -/
def aspeed_sgpio_irq_ack (gpio : aspeed_sgpio) (d : Nat) : Option aspeed_sgpio :=
  match irqd_to_aspeed_sgpio_data d with
  | (rc, bank, bit, _) =>
    if rc ≠ 0 then some gpio
    else
      match bank with
      | none => none
      | some b => some (iowrite32 bit (bank_reg b aspeed_sgpio_reg.reg_irq_status) gpio)

/-- `for_each_set_bit(p, &reg, 32)`: the positions below 32 whose bit is set,
in ascending order. -/
def for_each_set_bit (reg : Nat) : List Nat :=
  (List.range 32).filter (fun p => reg.testBit p)

/-- `for_each_clear_bit(offset, &input, 32)`: the positions below 32 whose bit
is clear, in ascending order. -/
def for_each_clear_bit (input : Nat) : List Nat :=
  (List.range 32).filter (fun offset => !input.testBit offset)

/-- The inner loop of `aspeed_sgpio_irq_handler` for bank `i` over the set bits
of the status word: every pin `i * 32 + p` is dispatched in turn.
`generic_handle_irq` is what the bound flow handler does to the instance; the
dispatched offsets are collected oldest first. -/
def irq_handler_dispatch (generic_handle_irq : Nat → aspeed_sgpio → aspeed_sgpio) (i : Nat) :
    List Nat → List Nat × aspeed_sgpio → List Nat × aspeed_sgpio
  | [], acc => acc
  | p :: rest, acc =>
    irq_handler_dispatch generic_handle_irq i rest
      (acc.1 ++ [i * 32 + p], generic_handle_irq (i * 32 + p) acc.2)

/-- The body of the bank loop of `aspeed_sgpio_irq_handler` for bank `i`. -/
def irq_handler_bank (generic_handle_irq : Nat → aspeed_sgpio → aspeed_sgpio) (i : Nat)
    (bank : aspeed_sgpio_bank) (acc : List Nat × aspeed_sgpio) : List Nat × aspeed_sgpio :=
  if !bank.support_irq then acc
  else
    let r := ioread32 acc.2 (bank_reg bank aspeed_sgpio_reg.reg_irq_status)
    irq_handler_dispatch generic_handle_irq i (for_each_set_bit r.1) (acc.1, r.2)

/-- The bank loop of `aspeed_sgpio_irq_handler` from index `i` on. -/
def irq_handler_loop (generic_handle_irq : Nat → aspeed_sgpio → aspeed_sgpio) :
    Nat → List aspeed_sgpio_bank → List Nat × aspeed_sgpio → List Nat × aspeed_sgpio
  | _, [], acc => acc
  | i, bank :: rest, acc =>
    irq_handler_loop generic_handle_irq (i + 1) rest
      (irq_handler_bank generic_handle_irq i bank acc)

/-- `aspeed_sgpio_irq_handler`: the pin offsets dispatched, in order, and the
instance afterwards. Entering and leaving the chained handler acts on the
parent interrupt chip only. -/
def aspeed_sgpio_irq_handler (generic_handle_irq : Nat → aspeed_sgpio → aspeed_sgpio)
    (gpio : aspeed_sgpio) : List Nat × aspeed_sgpio :=
  irq_handler_loop generic_handle_irq 0 aspeed_sgpio_banks ([], gpio)

/-- The inner loop of `aspeed_sgpio_init_irq_valid_mask` over the clear bits of
one entry's input mask; `i` is computed in `unsigned int`, and the loop is left
at the first `i` not below `ngpio`. -/
def valid_mask_clear (ngpio bank : Nat) : List Nat → (Nat → Bool) → (Nat → Bool)
  | [], valid_mask => valid_mask
  | offset :: rest, valid_mask =>
    let i := (bank * 32 + offset) % 2 ^ 32
    if i ≥ ngpio then valid_mask
    else valid_mask_clear ngpio bank rest (fun n => if n = i then false else valid_mask n)

/-- The entry loop of `aspeed_sgpio_init_irq_valid_mask`; it stops at the first
all-zero entry, and the end of the list stands for the closing all-zero
entry. -/
def valid_mask_loop (ngpio : Nat) : List aspeed_bank_props → (Nat → Bool) → (Nat → Bool)
  | [], valid_mask => valid_mask
  | props :: rest, valid_mask =>
    if is_bank_props_sentinel props then valid_mask
    else
      valid_mask_loop ngpio rest
        (valid_mask_clear ngpio props.bank (for_each_clear_bit props.input) valid_mask)

/-- `aspeed_sgpio_init_irq_valid_mask`: the bitmap as a predicate on pin
numbers. `gpio->chip.ngpio` is the `nr_gpios` of the configuration, as the
probe sets it. -/
def aspeed_sgpio_init_irq_valid_mask (gpio : aspeed_sgpio) (valid_mask : Nat → Bool) :
    Nat → Bool :=
  valid_mask_loop gpio.config.nr_gpios gpio.config.props valid_mask

/-- Errno `ENOMEM` of include/uapi/asm-generic/errno-base.h. -/
def ENOMEM : Int := 12

/-- The body of the bank loop of `aspeed_sgpio_setup_irqs`. -/
def setup_irqs_bank (gpio : aspeed_sgpio) (bank : aspeed_sgpio_bank) : aspeed_sgpio :=
  let g := iowrite32 0x00000000 (bank_reg bank aspeed_sgpio_reg.reg_tolerance) gpio
  if !bank.support_irq then g
  else
    let g := iowrite32 0x00000000 (bank_reg bank aspeed_sgpio_reg.reg_irq_enable) g
    let g := iowrite32 0xffffffff (bank_reg bank aspeed_sgpio_reg.reg_irq_status) g
    let g := iowrite32 0xffffffff (bank_reg bank aspeed_sgpio_reg.reg_irq_type0) g
    let g := iowrite32 0xffffffff (bank_reg bank aspeed_sgpio_reg.reg_irq_type1) g
    iowrite32 0x00000000 (bank_reg bank aspeed_sgpio_reg.reg_irq_type2) g

/-- `aspeed_sgpio_setup_irqs`: the return code and the instance after the bank
loop. `platform_irq` is what `platform_get_irq` returns and `parents_ok` says
whether `devm_kcalloc` succeeded; the fields of the irq chip filled in on
success are kernel bookkeeping outside the register window. -/
def aspeed_sgpio_setup_irqs (gpio : aspeed_sgpio) (platform_irq : Int) (parents_ok : Bool) :
    Int × aspeed_sgpio :=
  let g := aspeed_sgpio_banks.foldl setup_irqs_bank gpio
  if platform_irq < 0 then (platform_irq, g)
  else if !parents_ok then (-ENOMEM, g)
  else (0, g)

/-- `aspeed_sgpio_reset_tolerance`. -/
def aspeed_sgpio_reset_tolerance (gpio : aspeed_sgpio) (offset : Nat) (enable : Bool) :
    Option (Int × aspeed_sgpio) :=
  match to_bank offset with
  | none => none
  | some b =>
    let treg := bank_reg b aspeed_sgpio_reg.reg_tolerance
    let r := ioread32 gpio treg
    let val := if enable then (r.1 ||| GPIO_BIT offset) % 2 ^ 32
      else r.1 &&& not32 (GPIO_BIT offset)
    some (0, iowrite32 val treg r.2)

/-! ## Probe arithmetic -/

def ASPEED_SGPIO_CLK_DIV_MIN : Nat := 1
def ASPEED_SGPIO_CLK_DIV_MAX : Nat := 65535
def ASPEED_SGPIO_PINBYTES_MIN : Nat := 1
def ASPEED_SGPIO_PINBYTES_MAX : Nat := 10
def ASPEED_SGPIO_BUS_FREQ_DEFAULT : Nat := 1000000

/-- Width of `unsigned long` on the 32-bit ARM SoCs the driver binds to
(AST2400, AST2500, AST2600). -/
def BITS_PER_LONG : Nat := 32

/-- The `sgpio_freq` of `aspeed_sgpio_probe`: `bus_frequency` is the value
`device_property_read_u32` stores, or `none` when it returns a negative code. -/
def probe_sgpio_freq (bus_frequency : Option Nat) : Nat :=
  match bus_frequency with
  | none => ASPEED_SGPIO_BUS_FREQ_DEFAULT
  | some v => v % 2 ^ 32

/-- The `clk_div` of `aspeed_sgpio_probe` after clamping. The product
`2 * sgpio_freq` is taken in `unsigned int`, the quotient and the subtraction
in `unsigned long`, and the result is stored in a `u32`; `none` is a division
by zero. -/
def probe_clk_div (src_freq sgpio_freq : Nat) : Option Nat :=
  let den := (2 * (sgpio_freq % 2 ^ 32)) % 2 ^ 32
  if den = 0 then none
  else
    let q := (src_freq % 2 ^ BITS_PER_LONG) / den
    let clk_div := ((q + (2 ^ BITS_PER_LONG - 1)) % 2 ^ BITS_PER_LONG) % 2 ^ 32
    if clk_div < ASPEED_SGPIO_CLK_DIV_MIN then some ASPEED_SGPIO_CLK_DIV_MIN
    else if clk_div > ASPEED_SGPIO_CLK_DIV_MAX then some ASPEED_SGPIO_CLK_DIV_MAX
    else some clk_div

/-- The `nb_gpios` of `aspeed_sgpio_probe` after clamping. -/
def probe_nb_gpios (config : aspeed_sgpio_config) : Nat :=
  let nb_gpios := config.nr_gpios / 16
  if nb_gpios < ASPEED_SGPIO_PINBYTES_MIN then ASPEED_SGPIO_PINBYTES_MIN
  else if nb_gpios > ASPEED_SGPIO_PINBYTES_MAX then ASPEED_SGPIO_PINBYTES_MAX
  else nb_gpios

/-- `GENMASK(h, l)` of include/linux/bits.h on `unsigned long`. -/
def GENMASK (h l : Nat) : Nat :=
  (((2 ^ BITS_PER_LONG - 1) - 1 <<< l + 1) % 2 ^ BITS_PER_LONG) &&&
    ((2 ^ BITS_PER_LONG - 1) >>> (BITS_PER_LONG - 1 - h))

/-- `__bf_shf(mask)` of include/linux/bitfield.h: the position of the lowest
set bit of the mask. -/
def bf_shf (mask : Nat) : Nat :=
  ((List.range 64).find? (fun i => mask.testBit i)).getD 0

/-- `FIELD_PREP(mask, val)` of include/linux/bitfield.h. -/
def FIELD_PREP (mask val : Nat) : Nat :=
  ((val <<< bf_shf mask) % 2 ^ BITS_PER_LONG) &&& mask

def ASPEED_SGPIO_CTRL : Nat := 0x54
def ASPEED_SGPIO_CLK_DIV_MASK : Nat := GENMASK 31 16
def ASPEED_SGPIO_PINBYTES_MASK : Nat := GENMASK 9 6
def ASPEED_SGPIO_ENABLE : Nat := BIT 0

/-- The word `aspeed_sgpio_probe` writes to the control register, from the
clamped `clk_div` and `nb_gpios`. -/
def probe_ctrl_word (clk_div nb_gpios : Nat) : Nat :=
  FIELD_PREP ASPEED_SGPIO_CLK_DIV_MASK clk_div |||
    FIELD_PREP ASPEED_SGPIO_PINBYTES_MASK nb_gpios ||| ASPEED_SGPIO_ENABLE

/-- The part of `aspeed_sgpio_probe` from the clock rate to the write of the
control register; `src_freq` is what `clk_get_rate` returns. -/
def probe_write_ctrl (gpio : aspeed_sgpio) (src_freq sgpio_freq : Nat) : Option aspeed_sgpio :=
  match probe_clk_div src_freq sgpio_freq with
  | none => none
  | some clk_div =>
    some (iowrite32 (probe_ctrl_word clk_div (probe_nb_gpios gpio.config)) ASPEED_SGPIO_CTRL
      gpio)

/-! ## Shipped configuration -/

/-- The override table `ast_sgpio_bank_props`, closing entry included. -/
def ast_sgpio_bank_props : List aspeed_bank_props :=
  [ ⟨0, 0x00000000, 0xffffffff⟩,
    ⟨1, 0x00000000, 0xffffffff⟩,
    ⟨2, 0x00000000, 0x0000ffff⟩,
    ⟨3, 0xffffffff, 0x00000000⟩,
    ⟨4, 0xffffffff, 0x00000000⟩,
    ⟨5, 0x0000ffff, 0x00000000⟩,
    ⟨0, 0, 0⟩ ]

def ast2400_config : aspeed_sgpio_config :=
  { nr_pgpios := 224, nr_gpios := 192, props := ast_sgpio_bank_props }

def ast2500_config : aspeed_sgpio_config :=
  { nr_pgpios := 232, nr_gpios := 192, props := ast_sgpio_bank_props }

/-! ## Vocabulary of the properties -/

/-- The entries of an override table that the scan can reach: those before the
first all-zero entry. -/
def entries_before_sentinel (props : List aspeed_bank_props) : List aspeed_bank_props :=
  props.takeWhile (fun p => !is_bank_props_sentinel p)

/-- An instance over a given override table with all registers reading `r`, no
access made and no handler bound. -/
def fresh_gpio (props : List aspeed_bank_props) (r : Nat) : aspeed_sgpio :=
  { config := { nr_pgpios := 232, nr_gpios := 192, props := props }
    regs := fun _ => r
    trace := []
    handler := fun _ => irq_flow_handler_t.handle_bad_irq }

/-- The word `aspeed_sgpio_set` computes from the latch word of `bank`. -/
def set_word (gpio : aspeed_sgpio) (bank : aspeed_sgpio_bank) (offset : Nat) (val : Int) : Nat :=
  if val ≠ 0 then (gpio.regs bank.rdata_reg % 2 ^ 32 ||| GPIO_BIT offset) % 2 ^ 32
  else gpio.regs bank.rdata_reg % 2 ^ 32 &&& not32 (GPIO_BIT offset)

/-- The five trigger kinds the driver recognizes. -/
def recognized_kinds : List Nat :=
  [IRQ_TYPE_EDGE_RISING, IRQ_TYPE_EDGE_FALLING, IRQ_TYPE_EDGE_BOTH, IRQ_TYPE_LEVEL_HIGH,
    IRQ_TYPE_LEVEL_LOW]

/-- The documented encoding of each kind: the pin's bit in type0, type1 and
type2, and the flow handler. -/
def trigger_encoding : List (Nat × Bool × Bool × Bool × irq_flow_handler_t) :=
  [ (IRQ_TYPE_EDGE_RISING, true, false, false, irq_flow_handler_t.handle_edge_irq),
    (IRQ_TYPE_EDGE_FALLING, false, false, false, irq_flow_handler_t.handle_edge_irq),
    (IRQ_TYPE_EDGE_BOTH, true, false, true, irq_flow_handler_t.handle_edge_irq),
    (IRQ_TYPE_LEVEL_HIGH, true, true, false, irq_flow_handler_t.handle_level_irq),
    (IRQ_TYPE_LEVEL_LOW, false, true, false, irq_flow_handler_t.handle_level_irq) ]

/-- The pin offsets of bank `i` whose bit is set in the status word `w`, in
ascending order. -/
def pending_pins (i w : Nat) : List Nat :=
  (for_each_set_bit w).map (fun p => i * 32 + p)

/-- A flow handler that acknowledges the pin it is called for, as the edge
handler does. -/
def ack_handler (n : Nat) (gpio : aspeed_sgpio) : aspeed_sgpio :=
  (aspeed_sgpio_irq_ack gpio n).getD gpio

/-- Clamping of `x` to the interval from `lo` to `hi`. -/
def clamp (x lo hi : Int) : Int := max lo (min hi x)

/-- Rounding of the exact quotient `a / b` to the nearest integer. -/
def round_quotient (a b : Nat) : Int := round ((a : ℚ) / (b : ℚ))

/-- The eight register roles. -/
def all_regs : List aspeed_sgpio_reg :=
  [aspeed_sgpio_reg.reg_val, aspeed_sgpio_reg.reg_rdata, aspeed_sgpio_reg.reg_irq_enable,
    aspeed_sgpio_reg.reg_irq_type0, aspeed_sgpio_reg.reg_irq_type1,
    aspeed_sgpio_reg.reg_irq_type2, aspeed_sgpio_reg.reg_irq_status,
    aspeed_sgpio_reg.reg_tolerance]

/-- The offset whose contents a write to offset `a` changes: the `rdata` offset
of the bank whose `val` offset is `a`, and `a` itself otherwise. -/
def write_target (a : Nat) : Nat :=
  match aspeed_sgpio_banks.find? (fun b => b.val_reg == a) with
  | some b => b.rdata_reg
  | none => a

/-! ## Bit-level lemmas -/

theorem BIT_eq (n : Nat) : BIT n = 2 ^ n := by
  simp [BIT, Nat.one_shiftLeft]

theorem GPIO_OFFSET_lt (x : Nat) : GPIO_OFFSET x < 32 := by
  have h : x &&& 0x1f < 2 ^ 5 := Nat.and_lt_two_pow x (by decide)
  simpa [GPIO_OFFSET] using h

theorem GPIO_BIT_eq (x : Nat) : GPIO_BIT x = 2 ^ GPIO_OFFSET x := by
  simp [GPIO_BIT, BIT_eq]

theorem GPIO_BIT_lt (x : Nat) : GPIO_BIT x < 2 ^ 32 := by
  rw [GPIO_BIT_eq]
  exact Nat.pow_lt_pow_right (by decide) (GPIO_OFFSET_lt x)

/-- Masking a word with the bit of a pin and testing for nonzero reads the
pin's bit of the word. -/
theorem land_GPIO_BIT_ne_zero (w x : Nat) :
    (w &&& GPIO_BIT x != 0) = w.testBit (GPIO_OFFSET x) := by
  rw [GPIO_BIT_eq, Nat.and_two_pow]
  cases w.testBit (GPIO_OFFSET x) <;> simp

theorem testBit_mod32 (x i : Nat) :
    (x % 4294967296).testBit i = (decide (i < 32) && x.testBit i) := by
  have h : (4294967296 : Nat) = 2 ^ 32 := by norm_num
  rw [h, Nat.testBit_mod_two_pow]

theorem testBit_not32 (x i : Nat) :
    (not32 x).testBit i = (decide (i < 32) && !x.testBit i) := by
  unfold not32
  have h : (0xffffffff : Nat) = 2 ^ 32 - 1 := by norm_num
  rw [h, Nat.testBit_xor, Nat.testBit_two_pow_sub_one, Nat.testBit_mod_two_pow]
  by_cases hi : i < 32 <;> simp [hi]

/-! ## Bank table and register window lemmas -/

theorem to_bank_mem {offset : Nat} {bank : aspeed_sgpio_bank}
    (h : to_bank offset = some bank) : bank ∈ aspeed_sgpio_banks := by
  unfold to_bank at h
  exact List.getElem?_mem h

/-- A write to a bank's `val` offset is read back at the bank's `rdata`
offset. -/
theorem hw_store_val_rdata {bank : aspeed_sgpio_bank} (hm : bank ∈ aspeed_sgpio_banks)
    (regs : Nat → Nat) (v : Nat) :
    hw_store regs v bank.val_reg bank.rdata_reg = v := by
  simp only [aspeed_sgpio_banks, List.mem_cons, List.mem_singleton, List.not_mem_nil,
    or_false] at hm
  rcases hm with rfl | rfl | rfl | rfl | rfl | rfl <;>
    simp [hw_store, aspeed_sgpio_banks, List.find?]

/-- The capability predicates read the configuration only. -/
theorem have_output_congr {g1 g2 : aspeed_sgpio} (h : g1.config = g2.config) (offset : Nat) :
    have_output g1 offset = have_output g2 offset := by
  simp [have_output, find_bank_props, h]

theorem have_input_congr {g1 g2 : aspeed_sgpio} (h : g1.config = g2.config) (offset : Nat) :
    have_input g1 offset = have_input g2 offset := by
  simp [have_input, find_bank_props, h]

/-- A write to an interrupt-enable or trigger-type offset of a bank stores the
word there and nowhere else. -/
theorem hw_store_irq_cfg {bank : aspeed_sgpio_bank} (hm : bank ∈ aspeed_sgpio_banks)
    (k : Nat) (hk : k = 0 ∨ k = 4 ∨ k = 8 ∨ k = 12) (regs : Nat → Nat) (v : Nat) :
    hw_store regs v (bank.irq_regs + k) =
      fun a => if a = bank.irq_regs + k then v else regs a := by
  simp only [aspeed_sgpio_banks, List.mem_cons, List.mem_singleton, List.not_mem_nil,
    or_false] at hm
  rcases hm with rfl | rfl | rfl | rfl | rfl | rfl <;>
    rcases hk with rfl | rfl | rfl | rfl <;>
    simp [hw_store, aspeed_sgpio_banks, List.find?, GPIO_IRQ_STATUS]

theorem hw_store_irq_enable {bank : aspeed_sgpio_bank} (hm : bank ∈ aspeed_sgpio_banks)
    (regs : Nat → Nat) (v : Nat) :
    hw_store regs v bank.irq_regs = fun a => if a = bank.irq_regs then v else regs a :=
  hw_store_irq_cfg hm 0 (Or.inl rfl) regs v

/-- Bits of the word a read-modify-write of one pin's bit produces. -/
theorem testBit_rmw (r x t i : Nat) :
    (((r % 4294967296 &&& not32 (GPIO_BIT x)) ||| t) % 4294967296).testBit i =
      (decide (i < 32) && ((r.testBit i && !decide (GPIO_OFFSET x = i)) || t.testBit i)) := by
  simp only [testBit_mod32, Nat.testBit_or, Nat.testBit_and, testBit_not32, GPIO_BIT_eq,
    Nat.testBit_two_pow]
  by_cases hi : i < 32 <;> simp [hi]

theorem testBit_set_bit (r x i : Nat) :
    ((r % 4294967296 ||| GPIO_BIT x) % 4294967296).testBit i =
      (decide (i < 32) && (r.testBit i || decide (GPIO_OFFSET x = i))) := by
  simp only [testBit_mod32, Nat.testBit_or, GPIO_BIT_eq, Nat.testBit_two_pow]
  by_cases hi : i < 32 <;> simp [hi]

theorem testBit_clear_bit (r x i : Nat) :
    ((r % 4294967296 &&& not32 (GPIO_BIT x)) % 4294967296).testBit i =
      (decide (i < 32) && (r.testBit i && !decide (GPIO_OFFSET x = i))) := by
  simp only [testBit_mod32, Nat.testBit_and, testBit_not32, GPIO_BIT_eq,
    Nat.testBit_two_pow]
  by_cases hi : i < 32 <;> simp [hi]

/-! ## Capability lookup -/

theorem find_bank_props_in_eq_find (props : List aspeed_bank_props) (offset : Nat) :
    find_bank_props_in props offset =
      (entries_before_sentinel props).find? (fun p => p.bank == GPIO_BANK offset) := by
  induction props with
  | nil => rfl
  | cons p rest ih =>
    unfold find_bank_props_in entries_before_sentinel
    by_cases hs : is_bank_props_sentinel p = true
    · simp [hs, List.takeWhile]
    · by_cases hb : p.bank = GPIO_BANK offset
      · simp [hs, hb, List.takeWhile, List.find?]
      · have hb2 : (p.bank == GPIO_BANK offset) = false := by simpa using hb
        simp only [hs, hb, hb2, List.takeWhile, List.find?, Bool.not_false, if_false,
          Bool.false_eq_true, Bool.not_eq_true]
        simpa [entries_before_sentinel] using ih

/-- C1: for every override table and every pin offset whose bank index
(offset >> 5) occurs in no entry before the sentinel, `have_input` and
`have_output` both return true. -/
theorem have_input_output_default (gpio : aspeed_sgpio) (offset : Nat)
    (h : ∀ p ∈ entries_before_sentinel gpio.config.props, p.bank ≠ GPIO_BANK offset) :
    have_input gpio offset = true ∧ have_output gpio offset = true := by
  have hnone : find_bank_props gpio offset = none := by
    unfold find_bank_props
    rw [find_bank_props_in_eq_find, List.find?_eq_none]
    intro p hp
    simpa using h p hp
  simp [have_input, have_output, hnone]

/-- Witness for C1: pin 40 lies in bank 1, which the table names only after
its sentinel. -/
theorem have_input_output_default_witness :
    (∀ p ∈ entries_before_sentinel
        (fresh_gpio [⟨0, 0, 0xffff⟩, ⟨0, 0, 0⟩, ⟨1, 0, 1⟩] 0).config.props,
      p.bank ≠ GPIO_BANK 40) ∧
    have_input (fresh_gpio [⟨0, 0, 0xffff⟩, ⟨0, 0, 0⟩, ⟨1, 0, 1⟩] 0) 40 = true ∧
    have_output (fresh_gpio [⟨0, 0, 0xffff⟩, ⟨0, 0, 0⟩, ⟨1, 0, 1⟩] 0) 40 = true :=
  ⟨by decide, have_input_output_default _ 40 (by decide)⟩

/-- C2: for every override table and every pin offset whose bank index occurs
in an entry before the sentinel, the lookup settles on such an entry (the first
one with that bank index), `have_input` is true exactly when bit (offset & 31)
of that entry's input mask is set and `have_output` is true exactly when bit
(offset & 31) of its output mask is set; the permissive default plays no
part. -/
theorem have_input_output_override (gpio : aspeed_sgpio) (offset : Nat)
    (h : ∃ p ∈ entries_before_sentinel gpio.config.props, p.bank = GPIO_BANK offset) :
    ∃ e, e ∈ entries_before_sentinel gpio.config.props ∧
      e.bank = GPIO_BANK offset ∧
      (entries_before_sentinel gpio.config.props).find?
        (fun p => p.bank == GPIO_BANK offset) = some e ∧
      have_input gpio offset = e.input.testBit (GPIO_OFFSET offset) ∧
      have_output gpio offset = e.output.testBit (GPIO_OFFSET offset) := by
  obtain ⟨p, hp, hpb⟩ := h
  have hsome : ((entries_before_sentinel gpio.config.props).find?
      (fun p => p.bank == GPIO_BANK offset)).isSome = true := by
    rw [List.find?_isSome]
    exact ⟨p, hp, by simpa using hpb⟩
  obtain ⟨e, he⟩ := Option.isSome_iff_exists.mp hsome
  have hfind : find_bank_props gpio offset = some e := by
    unfold find_bank_props
    rw [find_bank_props_in_eq_find, he]
  refine ⟨e, List.mem_of_find?_eq_some he, ?_, he, ?_, ?_⟩
  · simpa using List.find?_some he
  · simp [have_input, hfind, land_GPIO_BIT_ne_zero]
  · simp [have_output, hfind, land_GPIO_BIT_ne_zero]

/-- Witness for C2: pin 37 (bank 1, bit 5) under the table whose bank-1 entry
has input mask 0x20 and output mask 0x1. -/
theorem have_input_output_override_witness :
    (∃ p ∈ entries_before_sentinel
        (fresh_gpio [⟨0, 0, 0xffff⟩, ⟨1, 0x20, 0x1⟩, ⟨0, 0, 0⟩] 0).config.props,
      p.bank = GPIO_BANK 37) ∧
    ∃ e, e ∈ entries_before_sentinel
        (fresh_gpio [⟨0, 0, 0xffff⟩, ⟨1, 0x20, 0x1⟩, ⟨0, 0, 0⟩] 0).config.props ∧
      e.bank = GPIO_BANK 37 ∧
      (entries_before_sentinel
        (fresh_gpio [⟨0, 0, 0xffff⟩, ⟨1, 0x20, 0x1⟩, ⟨0, 0, 0⟩] 0).config.props).find?
        (fun p => p.bank == GPIO_BANK 37) = some e ∧
      have_input (fresh_gpio [⟨0, 0, 0xffff⟩, ⟨1, 0x20, 0x1⟩, ⟨0, 0, 0⟩] 0) 37 =
        e.input.testBit (GPIO_OFFSET 37) ∧
      have_output (fresh_gpio [⟨0, 0, 0xffff⟩, ⟨1, 0x20, 0x1⟩, ⟨0, 0, 0⟩] 0) 37 =
        e.output.testBit (GPIO_OFFSET 37) :=
  ⟨⟨⟨1, 0x20, 0x1⟩, by decide, by decide⟩,
   have_input_output_override _ 37 ⟨⟨1, 0x20, 0x1⟩, by decide, by decide⟩⟩

/-! ## Pin operations -/

/-- The word `aspeed_sgpio_set` writes: the latch word read at `rdata` with the
pin's bit set for a nonzero value and cleared for zero. -/
theorem aspeed_sgpio_set_output (gpio : aspeed_sgpio) (offset : Nat)
    (bank : aspeed_sgpio_bank) (val : Int) (hb : to_bank offset = some bank)
    (ho : have_output gpio offset = true) :
    aspeed_sgpio_set gpio offset val =
      some (iowrite32 (set_word gpio bank offset val) bank.val_reg
        (ioread32 gpio bank.rdata_reg).2) := by
  simp only [aspeed_sgpio_set, ho, hb, Bool.not_true, Bool.false_eq_true, if_false,
    set_word, bank_reg, ioread32]

/-- C3: for every output-capable pin, every v in {0,1} and every register
contents, `aspeed_sgpio_set` with v followed by `aspeed_sgpio_get` on the same
pin returns v, whatever the current-value register held. -/
theorem set_get_roundtrip (gpio : aspeed_sgpio) (offset : Nat) (bank : aspeed_sgpio_bank)
    (v : Int) (hb : to_bank offset = some bank) (ho : have_output gpio offset = true)
    (hv : v = 0 ∨ v = 1) :
    ∃ g1 g2, aspeed_sgpio_set gpio offset v = some g1 ∧
      aspeed_sgpio_get g1 offset = some (v, g2) := by
  have hm := to_bank_mem hb
  have hk := GPIO_OFFSET_lt offset
  have hset := aspeed_sgpio_set_output gpio offset bank v hb ho
  refine ⟨iowrite32 (set_word gpio bank offset v) bank.val_reg (ioread32 gpio bank.rdata_reg).2,
    (ioread32 (iowrite32 (set_word gpio bank offset v) bank.val_reg
      (ioread32 gpio bank.rdata_reg).2) bank.rdata_reg).2, hset, ?_⟩
  have ho2 : have_output (iowrite32 (set_word gpio bank offset v) bank.val_reg
      (ioread32 gpio bank.rdata_reg).2) offset = true := by
    rw [← ho]
    exact have_output_congr rfl offset
  simp only [aspeed_sgpio_get, ho2, hb, if_true]
  simp only [ioread32, iowrite32, bank_reg, set_word, hw_store_val_rdata hm,
    land_GPIO_BIT_ne_zero]
  rcases hv with rfl | rfl
  · simp [testBit_mod32, testBit_not32, GPIO_BIT_eq, Nat.testBit_two_pow_self, hk]
  · simp [testBit_mod32, GPIO_BIT_eq, Nat.testBit_two_pow_self, hk]

/-- Witness for C3: pin 5 of the shipped configuration with every register
reading 0, driven to 1. -/
theorem set_get_roundtrip_witness :
    to_bank 5 = some ⟨0x0000, 0x0070, 0x0018, 0x0004, false, ["OA", "OB", "OC", "OD"]⟩ ∧
    have_output (fresh_gpio ast_sgpio_bank_props 0) 5 = true ∧
    ∃ g1 g2, aspeed_sgpio_set (fresh_gpio ast_sgpio_bank_props 0) 5 1 = some g1 ∧
      aspeed_sgpio_get g1 5 = some (1, g2) :=
  ⟨by decide, by decide,
   set_get_roundtrip (fresh_gpio ast_sgpio_bank_props 0) 5
     ⟨0x0000, 0x0070, 0x0018, 0x0004, false, ["OA", "OB", "OC", "OD"]⟩ 1 (by decide) (by decide)
     (Or.inr rfl)⟩

/-- C4: for every pin that is not output-capable and every value,
`aspeed_sgpio_set` returns with the instance as it was: no register is read or
written, the register window is unchanged, and nothing is reported. -/
theorem set_non_output_noop (gpio : aspeed_sgpio) (offset : Nat) (val : Int)
    (ho : have_output gpio offset = false) :
    aspeed_sgpio_set gpio offset val = some gpio := by
  simp [aspeed_sgpio_set, ho]

/-- Witness for C4: pin 100 (bank 3, input only) of the shipped
configuration. -/
theorem set_non_output_noop_witness :
    have_output (fresh_gpio ast_sgpio_bank_props 7) 100 = false ∧
    aspeed_sgpio_set (fresh_gpio ast_sgpio_bank_props 7) 100 1 =
      some (fresh_gpio ast_sgpio_bank_props 7) :=
  ⟨by decide, set_non_output_noop _ 100 1 (by decide)⟩

/-- C5: for every pin, `aspeed_sgpio_dir_in` returns -ENOTSUPP if and only if
the pin is not input-capable and 0 otherwise; `aspeed_sgpio_dir_out` returns
-ENOTSUPP if and only if the pin is not output-capable and 0 otherwise. -/
theorem dir_in_out_result (gpio : aspeed_sgpio) (offset : Nat) (bank : aspeed_sgpio_bank)
    (val : Int) (hb : to_bank offset = some bank) :
    (aspeed_sgpio_dir_in gpio offset = -ENOTSUPP ↔ have_input gpio offset = false) ∧
    (aspeed_sgpio_dir_in gpio offset = 0 ↔ have_input gpio offset = true) ∧
    ∃ rc g, aspeed_sgpio_dir_out gpio offset val = some (rc, g) ∧
      (rc = -ENOTSUPP ↔ have_output gpio offset = false) ∧
      (rc = 0 ↔ have_output gpio offset = true) := by
  refine ⟨?_, ?_, ?_⟩
  · cases hi : have_input gpio offset <;> simp [aspeed_sgpio_dir_in, hi, ENOTSUPP]
  · cases hi : have_input gpio offset <;> simp [aspeed_sgpio_dir_in, hi, ENOTSUPP]
  · cases ho : have_output gpio offset
    · exact ⟨-ENOTSUPP, gpio, by simp [aspeed_sgpio_dir_out, ho], by simp, by simp [ENOTSUPP]⟩
    · refine ⟨0, iowrite32 (set_word gpio bank offset val) bank.val_reg
        (ioread32 gpio bank.rdata_reg).2, ?_, by simp [ENOTSUPP], by simp⟩
      · simp only [aspeed_sgpio_dir_out, aspeed_sgpio_set_output gpio offset bank val hb ho,
          ho, Bool.not_true, Bool.false_eq_true, if_false]

/-- Witness for C5: pin 100 (bank 3) of the shipped configuration. -/
theorem dir_in_out_result_witness :
    to_bank 100 = some ⟨0x0000, 0x0070, 0x0018, 0x0004, true, ["IA", "IB", "IC", "ID"]⟩ ∧
    (aspeed_sgpio_dir_in (fresh_gpio ast_sgpio_bank_props 0) 100 = -ENOTSUPP ↔
      have_input (fresh_gpio ast_sgpio_bank_props 0) 100 = false) ∧
    (aspeed_sgpio_dir_in (fresh_gpio ast_sgpio_bank_props 0) 100 = 0 ↔
      have_input (fresh_gpio ast_sgpio_bank_props 0) 100 = true) ∧
    ∃ rc g, aspeed_sgpio_dir_out (fresh_gpio ast_sgpio_bank_props 0) 100 1 = some (rc, g) ∧
      (rc = -ENOTSUPP ↔ have_output (fresh_gpio ast_sgpio_bank_props 0) 100 = false) ∧
      (rc = 0 ↔ have_output (fresh_gpio ast_sgpio_bank_props 0) 100 = true) :=
  ⟨by decide, dir_in_out_result (fresh_gpio ast_sgpio_bank_props 0) 100
    ⟨0x0000, 0x0070, 0x0018, 0x0004, true, ["IA", "IB", "IC", "ID"]⟩ 1 (by decide)⟩

/-- C6: for every pin, `aspeed_sgpio_get_direction` returns 0 (output) if the
pin is output-capable, otherwise 1 (input) if it is input-capable, and
-ENOTSUPP exactly when the pin has neither capability. -/
theorem get_direction_result (gpio : aspeed_sgpio) (offset : Nat) :
    (have_output gpio offset = true → aspeed_sgpio_get_direction gpio offset = 0) ∧
    (have_output gpio offset = false → have_input gpio offset = true →
      aspeed_sgpio_get_direction gpio offset = 1) ∧
    (aspeed_sgpio_get_direction gpio offset = -ENOTSUPP ↔
      have_output gpio offset = false ∧ have_input gpio offset = false) := by
  cases ho : have_output gpio offset <;> cases hi : have_input gpio offset <;>
    simp [aspeed_sgpio_get_direction, ho, hi, ENOTSUPP]

/-- Witness for C6: pin 100 of the shipped configuration is input only, and
pin 90 (bank 2, bit 26) has neither capability. -/
theorem get_direction_result_witness :
    have_output (fresh_gpio ast_sgpio_bank_props 0) 100 = false ∧
    have_input (fresh_gpio ast_sgpio_bank_props 0) 100 = true ∧
    aspeed_sgpio_get_direction (fresh_gpio ast_sgpio_bank_props 0) 100 = 1 ∧
    have_output (fresh_gpio ast_sgpio_bank_props 0) 90 = false ∧
    have_input (fresh_gpio ast_sgpio_bank_props 0) 90 = false ∧
    aspeed_sgpio_get_direction (fresh_gpio ast_sgpio_bank_props 0) 90 = -ENOTSUPP :=
  ⟨by decide, by decide,
   (get_direction_result (fresh_gpio ast_sgpio_bank_props 0) 100).2.1 (by decide) (by decide),
   by decide, by decide,
   (get_direction_result (fresh_gpio ast_sgpio_bank_props 0) 90).2.2.mpr
     ⟨by decide, by decide⟩⟩

/-! ## Interrupt operations -/

theorem IRQ_TYPE_EDGE_BOTH_eq : IRQ_TYPE_EDGE_BOTH = 3 := by decide

/-- The switch of `aspeed_sgpio_set_type` yields the documented encoding for
a request whose sense bits are one of the five kinds. -/
theorem set_type_switch_of_encoding (type bit : Nat) (t0 t1 t2 : Bool)
    (h : irq_flow_handler_t)
    (hk : (type &&& IRQ_TYPE_SENSE_MASK, t0, t1, t2, h) ∈ trigger_encoding) :
    set_type_switch type bit =
      some (if t0 then bit else 0, if t1 then bit else 0, if t2 then bit else 0, h) := by
  simp only [trigger_encoding, List.mem_cons, List.mem_singleton, List.not_mem_nil,
    or_false, Prod.mk.injEq] at hk
  rcases hk with ⟨hs, rfl, rfl, rfl, rfl⟩ | ⟨hs, rfl, rfl, rfl, rfl⟩ |
      ⟨hs, rfl, rfl, rfl, rfl⟩ | ⟨hs, rfl, rfl, rfl, rfl⟩ | ⟨hs, rfl, rfl, rfl, rfl⟩ <;>
    simp [set_type_switch, hs, IRQ_TYPE_EDGE_BOTH_eq, IRQ_TYPE_EDGE_RISING,
      IRQ_TYPE_EDGE_FALLING, IRQ_TYPE_LEVEL_HIGH, IRQ_TYPE_LEVEL_LOW]

/-- Counterexample to C7 as stated: on pin 96 (bank 3, interrupt-capable) the
request 0x11 is none of the five kinds, yet `aspeed_sgpio_set_type` returns 0
and sets the pin's bit in the type0 register at offset 0x08. -/
theorem set_type_high_bits_accepted :
    to_bank 96 = some ⟨0x0000, 0x0070, 0x0018, 0x0004, true, ["IA", "IB", "IC", "ID"]⟩ ∧
    0x11 ∉ recognized_kinds ∧
    (aspeed_sgpio_set_type (fresh_gpio ast_sgpio_bank_props 0) 96 0x11).map Prod.fst =
      some 0 ∧
    (aspeed_sgpio_set_type (fresh_gpio ast_sgpio_bank_props 0) 96 0x11).map
      (fun r => r.2.regs 0x08) = some 1 ∧
    (fresh_gpio ast_sgpio_bank_props 0).regs 0x08 = 0 := by
  refine ⟨by decide, by decide, ?_, ?_, rfl⟩ <;> rfl

/-- C7 (amended): for every pin in an interrupt-capable bank and every
requested value, `aspeed_sgpio_set_type` returns -EINVAL and leaves the
instance as it was whenever the request masked with IRQ_TYPE_SENSE_MASK is not
one of the five recognized kinds, and returns 0 when the masked request is one
of them. -/
theorem set_type_sense_rejected (gpio : aspeed_sgpio) (d type : Nat)
    (bank : aspeed_sgpio_bank) (hb : to_bank d = some bank)
    (hs : bank.support_irq = true) :
    (type &&& IRQ_TYPE_SENSE_MASK ∉ recognized_kinds →
      aspeed_sgpio_set_type gpio d type = some (-EINVAL, gpio)) ∧
    (type &&& IRQ_TYPE_SENSE_MASK ∈ recognized_kinds →
      ∃ g, aspeed_sgpio_set_type gpio d type = some (0, g)) := by
  constructor
  · intro hk
    have hsw : set_type_switch type (GPIO_BIT d) = none := by
      simp only [recognized_kinds, List.mem_cons, List.mem_singleton, List.not_mem_nil,
        or_false, not_or] at hk
      obtain ⟨h1, h2, h3, h4, h5⟩ := hk
      simp [set_type_switch, h1, h2, h3, h4, h5]
    simp [aspeed_sgpio_set_type, irqd_to_aspeed_sgpio_data, hb, hs, hsw]
  · intro hk
    have hsw : ∃ r, set_type_switch type (GPIO_BIT d) = some r := by
      simp only [recognized_kinds, List.mem_cons, List.mem_singleton, List.not_mem_nil,
        or_false] at hk
      rcases hk with h | h | h | h | h
      · exact ⟨_, set_type_switch_of_encoding type _ true false false
          irq_flow_handler_t.handle_edge_irq (by simp [trigger_encoding, h])⟩
      · exact ⟨_, set_type_switch_of_encoding type _ false false false
          irq_flow_handler_t.handle_edge_irq (by simp [trigger_encoding, h])⟩
      · exact ⟨_, set_type_switch_of_encoding type _ true false true
          irq_flow_handler_t.handle_edge_irq (by simp [trigger_encoding, h])⟩
      · exact ⟨_, set_type_switch_of_encoding type _ true true false
          irq_flow_handler_t.handle_level_irq (by simp [trigger_encoding, h])⟩
      · exact ⟨_, set_type_switch_of_encoding type _ false true false
          irq_flow_handler_t.handle_level_irq (by simp [trigger_encoding, h])⟩
    obtain ⟨⟨t0, t1, t2, h⟩, hr⟩ := hsw
    simp [aspeed_sgpio_set_type, irqd_to_aspeed_sgpio_data, hb, hs, hr]

/-- Witness for C7 (amended): request 0 (no sense bit) on pin 96. -/
theorem set_type_sense_rejected_witness :
    to_bank 96 = some ⟨0x0000, 0x0070, 0x0018, 0x0004, true, ["IA", "IB", "IC", "ID"]⟩ ∧
    (0 &&& IRQ_TYPE_SENSE_MASK ∉ recognized_kinds →
      aspeed_sgpio_set_type (fresh_gpio ast_sgpio_bank_props 0) 96 0 =
        some (-EINVAL, fresh_gpio ast_sgpio_bank_props 0)) ∧
    (0 &&& IRQ_TYPE_SENSE_MASK ∈ recognized_kinds →
      ∃ g, aspeed_sgpio_set_type (fresh_gpio ast_sgpio_bank_props 0) 96 0 = some (0, g)) :=
  ⟨by decide, set_type_sense_rejected (fresh_gpio ast_sgpio_bank_props 0) 96 0
    ⟨0x0000, 0x0070, 0x0018, 0x0004, true, ["IA", "IB", "IC", "ID"]⟩ (by decide) rfl⟩

/-- C8: for every pin whose bank has support_irq = false and every requested
value, `aspeed_sgpio_set_type` returns -ENOTSUPP and the instance is as it
was: no register read or written, no handler bound. -/
theorem set_type_no_irq_bank (gpio : aspeed_sgpio) (d type : Nat)
    (bank : aspeed_sgpio_bank) (hb : to_bank d = some bank)
    (hs : bank.support_irq = false) :
    aspeed_sgpio_set_type gpio d type = some (-ENOTSUPP, gpio) := by
  simp [aspeed_sgpio_set_type, irqd_to_aspeed_sgpio_data, hb, hs]

/-- Witness for C8: pin 5 (bank 0) with the valid request edge-rising. -/
theorem set_type_no_irq_bank_witness :
    to_bank 5 = some ⟨0x0000, 0x0070, 0x0018, 0x0004, false, ["OA", "OB", "OC", "OD"]⟩ ∧
    aspeed_sgpio_set_type (fresh_gpio ast_sgpio_bank_props 0) 5 IRQ_TYPE_EDGE_RISING =
      some (-ENOTSUPP, fresh_gpio ast_sgpio_bank_props 0) :=
  ⟨by decide, set_type_no_irq_bank (fresh_gpio ast_sgpio_bank_props 0) 5 IRQ_TYPE_EDGE_RISING
    ⟨0x0000, 0x0070, 0x0018, 0x0004, false, ["OA", "OB", "OC", "OD"]⟩ (by decide) rfl⟩

theorem rmw_type_regs {bank : aspeed_sgpio_bank} (hm : bank ∈ aspeed_sgpio_banks)
    (k : Nat) (hk : k = 0 ∨ k = 4 ∨ k = 8 ∨ k = 12) (gpio : aspeed_sgpio) (bit t : Nat) :
    (rmw_type gpio (bank.irq_regs + k) bit t).regs =
      fun a => if a = bank.irq_regs + k then
        ((gpio.regs (bank.irq_regs + k) % 4294967296 &&& not32 bit) ||| t) % 4294967296
      else gpio.regs a := by
  simp only [rmw_type, ioread32, iowrite32, hw_store_irq_cfg hm k hk]
  rfl

/-- The instance `aspeed_sgpio_set_type` leaves when the switch accepts the
request. -/
theorem aspeed_sgpio_set_type_ok (gpio : aspeed_sgpio) (d type : Nat)
    (bank : aspeed_sgpio_bank) (t0 t1 t2 : Nat) (h : irq_flow_handler_t)
    (hb : to_bank d = some bank) (hs : bank.support_irq = true)
    (hsw : set_type_switch type (GPIO_BIT d) = some (t0, t1, t2, h)) :
    aspeed_sgpio_set_type gpio d type =
      some (0, { rmw_type (rmw_type (rmw_type gpio (bank.irq_regs + 4) (GPIO_BIT d) t0)
          (bank.irq_regs + 8) (GPIO_BIT d) t1) (bank.irq_regs + 12) (GPIO_BIT d) t2 with
        handler := fun n => if n = d then h else gpio.handler n }) := by
  simp only [aspeed_sgpio_set_type, irqd_to_aspeed_sgpio_data, hb, hs, hsw, bank_reg,
    GPIO_IRQ_TYPE0, GPIO_IRQ_TYPE1, GPIO_IRQ_TYPE2]
  rfl

/-- C9: for every pin in an interrupt-capable bank and each of the five
recognized kinds, `aspeed_sgpio_set_type` returns 0 and leaves the pin's bit
(offset & 31) of the bank's type0/type1/type2 registers at: edge-rising 1/0/0,
edge-falling 0/0/0, edge-both 1/0/1, level-high 1/1/0, level-low 0/1/0; the
other 31 bits of those registers and every other register are unchanged; the
handler bound to the pin's line is the edge handler for the edge kinds and the
level handler for the level kinds, and no other line is rebound. -/
theorem set_type_encoding (gpio : aspeed_sgpio) (d type : Nat) (bank : aspeed_sgpio_bank)
    (t0 t1 t2 : Bool) (h : irq_flow_handler_t) (hb : to_bank d = some bank)
    (hs : bank.support_irq = true) (hk : (type, t0, t1, t2, h) ∈ trigger_encoding) :
    ∃ g, aspeed_sgpio_set_type gpio d type = some (0, g) ∧
      (g.regs (bank_reg bank aspeed_sgpio_reg.reg_irq_type0)).testBit (GPIO_OFFSET d) = t0 ∧
      (g.regs (bank_reg bank aspeed_sgpio_reg.reg_irq_type1)).testBit (GPIO_OFFSET d) = t1 ∧
      (g.regs (bank_reg bank aspeed_sgpio_reg.reg_irq_type2)).testBit (GPIO_OFFSET d) = t2 ∧
      (∀ r ∈ [aspeed_sgpio_reg.reg_irq_type0, aspeed_sgpio_reg.reg_irq_type1,
            aspeed_sgpio_reg.reg_irq_type2],
        ∀ i, i < 32 → i ≠ GPIO_OFFSET d →
          (g.regs (bank_reg bank r)).testBit i = (gpio.regs (bank_reg bank r)).testBit i) ∧
      (∀ a, a ≠ bank_reg bank aspeed_sgpio_reg.reg_irq_type0 →
        a ≠ bank_reg bank aspeed_sgpio_reg.reg_irq_type1 →
        a ≠ bank_reg bank aspeed_sgpio_reg.reg_irq_type2 → g.regs a = gpio.regs a) ∧
      g.handler d = h ∧ (∀ n, n ≠ d → g.handler n = gpio.handler n) := by
  have hm := to_bank_mem hb
  have hlt := GPIO_OFFSET_lt d
  have hmask : (type &&& IRQ_TYPE_SENSE_MASK, t0, t1, t2, h) ∈ trigger_encoding := by
    have hty : type &&& IRQ_TYPE_SENSE_MASK = type := by
      simp only [trigger_encoding, List.mem_cons, List.mem_singleton, List.not_mem_nil,
        or_false, Prod.mk.injEq] at hk
      rcases hk with ⟨rfl, _⟩ | ⟨rfl, _⟩ | ⟨rfl, _⟩ | ⟨rfl, _⟩ | ⟨rfl, _⟩ <;> decide
    rw [hty]
    exact hk
  have hsw := set_type_switch_of_encoding type (GPIO_BIT d) t0 t1 t2 h hmask
  have hres := aspeed_sgpio_set_type_ok gpio d type bank _ _ _ h hb hs hsw
  have hb0 : ((0 : Nat).testBit (GPIO_OFFSET d)) = false := Nat.zero_testBit _
  have hbb : (GPIO_BIT d).testBit (GPIO_OFFSET d) = true := by
    rw [GPIO_BIT_eq]
    exact Nat.testBit_two_pow_self
  have hbo : ∀ i, i ≠ GPIO_OFFSET d → (GPIO_BIT d).testBit i = false := by
    intro i hi
    rw [GPIO_BIT_eq]
    exact Nat.testBit_two_pow_of_ne (Ne.symm hi)
  have hw : ∀ (t : Bool) (i : Nat),
      (if t = true then GPIO_BIT d else 0).testBit i = (t && decide (GPIO_OFFSET d = i)) := by
    intro t i
    cases t
    · simp
    · by_cases hi : GPIO_OFFSET d = i
      · subst hi
        simp [hbb]
      · simp [hi, hbo i (Ne.symm hi)]
  refine ⟨_, hres, ?_, ?_, ?_, ?_, ?_, ?_, ?_⟩
  · simp [bank_reg, GPIO_IRQ_TYPE0, rmw_type_regs hm 4 (by simp), rmw_type_regs hm 8 (by simp),
      rmw_type_regs hm 12 (by simp), testBit_rmw, hw, hlt]
  · simp [bank_reg, GPIO_IRQ_TYPE1, rmw_type_regs hm 4 (by simp), rmw_type_regs hm 8 (by simp),
      rmw_type_regs hm 12 (by simp), testBit_rmw, hw, hlt]
  · simp [bank_reg, GPIO_IRQ_TYPE2, rmw_type_regs hm 4 (by simp), rmw_type_regs hm 8 (by simp),
      rmw_type_regs hm 12 (by simp), testBit_rmw, hw, hlt]
  · intro r hr i hi hne
    have hne2 : ¬ GPIO_OFFSET d = i := fun e => hne e.symm
    simp only [List.mem_cons, List.mem_singleton, List.not_mem_nil, or_false] at hr
    rcases hr with rfl | rfl | rfl <;>
      simp [bank_reg, GPIO_IRQ_TYPE0, GPIO_IRQ_TYPE1, GPIO_IRQ_TYPE2,
        rmw_type_regs hm 4 (by simp), rmw_type_regs hm 8 (by simp),
        rmw_type_regs hm 12 (by simp), testBit_rmw, hw, hi, hne2]
  · intro a h0 h1 h2
    simp only [bank_reg, GPIO_IRQ_TYPE0, GPIO_IRQ_TYPE1, GPIO_IRQ_TYPE2] at h0 h1 h2
    simp [rmw_type_regs hm 4 (by simp), rmw_type_regs hm 8 (by simp),
      rmw_type_regs hm 12 (by simp), h0, h1, h2]
  · simp
  · intro n hn
    simp [hn, rmw_type]

/-- Witness for C9: level-high on pin 100 (bank 3, bit 4) with every register
reading 0. -/
theorem set_type_encoding_witness :
    to_bank 100 = some ⟨0x0000, 0x0070, 0x0018, 0x0004, true, ["IA", "IB", "IC", "ID"]⟩ ∧
    ∃ g, aspeed_sgpio_set_type (fresh_gpio ast_sgpio_bank_props 0) 100 IRQ_TYPE_LEVEL_HIGH =
        some (0, g) ∧
      (g.regs 0x08).testBit (GPIO_OFFSET 100) = true ∧
      (g.regs 0x0c).testBit (GPIO_OFFSET 100) = true ∧
      (g.regs 0x10).testBit (GPIO_OFFSET 100) = false ∧
      g.handler 100 = irq_flow_handler_t.handle_level_irq :=
  ⟨by decide,
   match set_type_encoding (fresh_gpio ast_sgpio_bank_props 0) 100 IRQ_TYPE_LEVEL_HIGH
      ⟨0x0000, 0x0070, 0x0018, 0x0004, true, ["IA", "IB", "IC", "ID"]⟩ true true false
      irq_flow_handler_t.handle_level_irq (by decide) rfl (by decide) with
   | ⟨g, hg, h0, h1, h2, _, _, hh, _⟩ => ⟨g, hg, h0, h1, h2, hh⟩⟩

/-- The instance `aspeed_sgpio_irq_set_mask` leaves on an interrupt-capable
bank. -/
theorem aspeed_sgpio_irq_set_mask_ok (gpio : aspeed_sgpio) (d : Nat)
    (bank : aspeed_sgpio_bank) (set : Bool) (hb : to_bank d = some bank)
    (hs : bank.support_irq = true) :
    aspeed_sgpio_irq_set_mask gpio d set =
      some (iowrite32
        (if set = true then (gpio.regs bank.irq_regs % 4294967296 ||| GPIO_BIT d) %
            4294967296
          else gpio.regs bank.irq_regs % 4294967296 &&& not32 (GPIO_BIT d))
        bank.irq_regs (ioread32 gpio bank.irq_regs).2) := by
  simp only [aspeed_sgpio_irq_set_mask, irqd_to_aspeed_sgpio_data, hb, hs, bank_reg,
    GPIO_IRQ_ENABLE, ioread32]
  rfl

/-- C10: for every pin whose bank supports interrupts, `aspeed_sgpio_irq_unmask`
sets and `aspeed_sgpio_irq_mask` clears bit (offset & 31) of that bank's
interrupt-enable register, leaving the other 31 bits and all other registers
unchanged; for a pin whose bank does not support interrupts both leave the
instance as it was (no register read or written). -/
theorem irq_mask_unmask_effect (gpio : aspeed_sgpio) (d : Nat) (bank : aspeed_sgpio_bank)
    (hb : to_bank d = some bank) :
    (bank.support_irq = true →
      (∃ g, aspeed_sgpio_irq_unmask gpio d = some g ∧
        (g.regs (bank_reg bank aspeed_sgpio_reg.reg_irq_enable)).testBit (GPIO_OFFSET d) =
          true ∧
        (∀ i, i < 32 → i ≠ GPIO_OFFSET d →
          (g.regs (bank_reg bank aspeed_sgpio_reg.reg_irq_enable)).testBit i =
            (gpio.regs (bank_reg bank aspeed_sgpio_reg.reg_irq_enable)).testBit i) ∧
        (∀ a, a ≠ bank_reg bank aspeed_sgpio_reg.reg_irq_enable → g.regs a = gpio.regs a)) ∧
      (∃ g, aspeed_sgpio_irq_mask gpio d = some g ∧
        (g.regs (bank_reg bank aspeed_sgpio_reg.reg_irq_enable)).testBit (GPIO_OFFSET d) =
          false ∧
        (∀ i, i < 32 → i ≠ GPIO_OFFSET d →
          (g.regs (bank_reg bank aspeed_sgpio_reg.reg_irq_enable)).testBit i =
            (gpio.regs (bank_reg bank aspeed_sgpio_reg.reg_irq_enable)).testBit i) ∧
        (∀ a, a ≠ bank_reg bank aspeed_sgpio_reg.reg_irq_enable →
          g.regs a = gpio.regs a))) ∧
    (bank.support_irq = false →
      aspeed_sgpio_irq_unmask gpio d = some gpio ∧ aspeed_sgpio_irq_mask gpio d = some gpio) := by
  have hm := to_bank_mem hb
  have hlt := GPIO_OFFSET_lt d
  constructor
  · intro hs
    constructor
    · refine ⟨_, aspeed_sgpio_irq_set_mask_ok gpio d bank true hb hs, ?_, ?_, ?_⟩
      · simp [bank_reg, GPIO_IRQ_ENABLE, iowrite32, ioread32,
          hw_store_irq_enable hm, testBit_set_bit, hlt]
      · intro i hi hne
        have hne2 : ¬ GPIO_OFFSET d = i := fun e => hne e.symm
        simp [bank_reg, GPIO_IRQ_ENABLE, iowrite32, ioread32,
          hw_store_irq_enable hm, testBit_set_bit, hi, hne2]
      · intro a ha
        simp only [bank_reg, GPIO_IRQ_ENABLE, Nat.add_zero] at ha
        simp [iowrite32, ioread32, hw_store_irq_enable hm, ha]
    · refine ⟨_, aspeed_sgpio_irq_set_mask_ok gpio d bank false hb hs, ?_, ?_, ?_⟩
      · simp [bank_reg, GPIO_IRQ_ENABLE, iowrite32, ioread32,
          hw_store_irq_enable hm, testBit_clear_bit, hlt]
      · intro i hi hne
        have hne2 : ¬ GPIO_OFFSET d = i := fun e => hne e.symm
        simp [bank_reg, GPIO_IRQ_ENABLE, iowrite32, ioread32,
          hw_store_irq_enable hm, testBit_clear_bit, hi, hne2]
      · intro a ha
        simp only [bank_reg, GPIO_IRQ_ENABLE, Nat.add_zero] at ha
        simp [iowrite32, ioread32, hw_store_irq_enable hm, ha]
  · intro hs
    simp [aspeed_sgpio_irq_unmask, aspeed_sgpio_irq_mask, aspeed_sgpio_irq_set_mask,
      irqd_to_aspeed_sgpio_data, hb, hs]

/-- Witness for C10: pin 100 (bank 3, bit 4) with every register reading 0:
unmasking sets bit 4 of the enable register at offset 0x04 and masking leaves
it clear. -/
theorem irq_mask_unmask_effect_witness :
    to_bank 100 = some ⟨0x0000, 0x0070, 0x0018, 0x0004, true, ["IA", "IB", "IC", "ID"]⟩ ∧
    (∃ g, aspeed_sgpio_irq_unmask (fresh_gpio ast_sgpio_bank_props 0) 100 = some g ∧
      (g.regs 0x04).testBit (GPIO_OFFSET 100) = true) ∧
    (∃ g, aspeed_sgpio_irq_mask (fresh_gpio ast_sgpio_bank_props 0) 100 = some g ∧
      (g.regs 0x04).testBit (GPIO_OFFSET 100) = false) :=
  ⟨by decide,
   match (irq_mask_unmask_effect (fresh_gpio ast_sgpio_bank_props 0) 100
      ⟨0x0000, 0x0070, 0x0018, 0x0004, true, ["IA", "IB", "IC", "ID"]⟩ (by decide)).1 rfl with
   | ⟨⟨g, hg, hbit, _, _⟩, ⟨g2, hg2, hbit2, _, _⟩⟩ => ⟨⟨g, hg, hbit⟩, ⟨g2, hg2, hbit2⟩⟩⟩

/-- A write to a bank's interrupt-status offset clears there the bits written
as one and changes no other offset. -/
theorem hw_store_irq_status {bank : aspeed_sgpio_bank} (hm : bank ∈ aspeed_sgpio_banks)
    (regs : Nat → Nat) (v : Nat) :
    hw_store regs v (bank.irq_regs + 16) =
      fun a => if a = bank.irq_regs + 16 then regs a % 4294967296 &&& not32 v
        else regs a := by
  simp only [aspeed_sgpio_banks, List.mem_cons, List.mem_singleton, List.not_mem_nil,
    or_false] at hm
  rcases hm with rfl | rfl | rfl | rfl | rfl | rfl <;>
    simp [hw_store, aspeed_sgpio_banks, List.find?, GPIO_IRQ_STATUS]

/-- C11: for every pin, `aspeed_sgpio_irq_ack` makes exactly one access to the
register window, a write and no read: the word with only bit (offset & 31) set
goes to the interrupt-status register (irq_regs + 0x10) of the pin's bank;
with the status register clearing the bits written as one, that status bit
ends clear, the other 31 bits are kept, and no other register changes. -/
theorem irq_ack_single_write (gpio : aspeed_sgpio) (d : Nat) (bank : aspeed_sgpio_bank)
    (hb : to_bank d = some bank) :
    ∃ g, aspeed_sgpio_irq_ack gpio d = some g ∧
      g.trace = gpio.trace ++ [RegAccess.wr (2 ^ GPIO_OFFSET d) (bank.irq_regs + 0x10)] ∧
      (g.regs (bank.irq_regs + 0x10)).testBit (GPIO_OFFSET d) = false ∧
      (∀ i, i < 32 → i ≠ GPIO_OFFSET d →
        (g.regs (bank.irq_regs + 0x10)).testBit i =
          (gpio.regs (bank.irq_regs + 0x10)).testBit i) ∧
      (∀ a, a ≠ bank.irq_regs + 0x10 → g.regs a = gpio.regs a) := by
  have hm := to_bank_mem hb
  have hlt := GPIO_OFFSET_lt d
  have hmod : GPIO_BIT d % 4294967296 = 2 ^ GPIO_OFFSET d := by
    have h := GPIO_BIT_lt d
    rw [Nat.mod_eq_of_lt (by simpa using h), GPIO_BIT_eq]
  refine ⟨iowrite32 (GPIO_BIT d) (bank.irq_regs + 16) gpio, ?_, ?_, ?_, ?_, ?_⟩
  · simp only [aspeed_sgpio_irq_ack, irqd_to_aspeed_sgpio_data, hb, bank_reg, GPIO_IRQ_STATUS]
    rfl
  · simp [iowrite32, hmod]
  · simp [iowrite32, hw_store_irq_status hm, hmod, testBit_not32, Nat.testBit_two_pow_self]
  · intro i hi hne
    have hne2 : ¬ GPIO_OFFSET d = i := fun e => hne e.symm
    simp [iowrite32, hw_store_irq_status hm, hmod, testBit_not32, testBit_mod32,
      Nat.testBit_two_pow, hi, hne2]
  · intro a ha
    have ha2 : a ≠ bank.irq_regs + 16 := ha
    simp [iowrite32, hw_store_irq_status hm, ha2]

/-- Witness for C11: pin 100 (bank 3, bit 4) with every register reading
0xffffffff: the single write is 0x10 to offset 0x14. -/
theorem irq_ack_single_write_witness :
    to_bank 100 = some ⟨0x0000, 0x0070, 0x0018, 0x0004, true, ["IA", "IB", "IC", "ID"]⟩ ∧
    ∃ g, aspeed_sgpio_irq_ack (fresh_gpio ast_sgpio_bank_props 0xffffffff) 100 = some g ∧
      g.trace = [RegAccess.wr 0x10 0x14] ∧
      (g.regs 0x14).testBit 4 = false :=
  ⟨by decide,
   match irq_ack_single_write (fresh_gpio ast_sgpio_bank_props 0xffffffff) 100
      ⟨0x0000, 0x0070, 0x0018, 0x0004, true, ["IA", "IB", "IC", "ID"]⟩ (by decide) with
   | ⟨g, hg, ht, hbit, _, _⟩ => ⟨g, hg, ht, hbit⟩⟩

/-! ## Demultiplexing handler -/

theorem mem_for_each_set_bit (w p : Nat) :
    p ∈ for_each_set_bit w ↔ p < 32 ∧ w.testBit p = true := by
  simp [for_each_set_bit, List.mem_filter, List.mem_range]

theorem mem_pending_pins (i w n : Nat) :
    n ∈ pending_pins i w ↔ ∃ p, p < 32 ∧ w.testBit p = true ∧ n = i * 32 + p := by
  simp only [pending_pins, List.mem_map, mem_for_each_set_bit]
  constructor
  · rintro ⟨p, ⟨hp, hw⟩, rfl⟩
    exact ⟨p, hp, hw, rfl⟩
  · rintro ⟨p, hp, hw, rfl⟩
    exact ⟨p, ⟨hp, hw⟩, rfl⟩

theorem pending_pins_range (i w n : Nat) (h : n ∈ pending_pins i w) :
    i * 32 ≤ n ∧ n < i * 32 + 32 := by
  obtain ⟨p, hp, _, rfl⟩ := (mem_pending_pins i w n).mp h
  omega

theorem pending_pins_sorted (i w : Nat) : List.Pairwise (· < ·) (pending_pins i w) := by
  unfold pending_pins for_each_set_bit
  rw [List.pairwise_map]
  have hr : List.Pairwise (· < ·) (List.range 32) := List.pairwise_lt_range 32
  exact (hr.sublist (List.filter_sublist _)).imp (fun hab => by omega)

theorem GPIO_BANK_pin (i p : Nat) (hp : p < 32) : GPIO_BANK (i * 32 + p) = i := by
  simp only [GPIO_BANK, Nat.shiftRight_eq_div_pow]
  omega

theorem irq_handler_dispatch_fst (h : Nat → aspeed_sgpio → aspeed_sgpio) (i : Nat)
    (ps : List Nat) (acc : List Nat × aspeed_sgpio) :
    (irq_handler_dispatch h i ps acc).1 = acc.1 ++ ps.map (fun p => i * 32 + p) := by
  induction ps generalizing acc with
  | nil => simp [irq_handler_dispatch]
  | cons p rest ih => simp [irq_handler_dispatch, ih, List.append_assoc]

theorem irq_handler_dispatch_regs (h : Nat → aspeed_sgpio → aspeed_sgpio) (i : Nat)
    (ps : List Nat) (acc : List Nat × aspeed_sgpio) (a : Nat)
    (hp : ∀ p ∈ ps, ∀ g, (h (i * 32 + p) g).regs a = g.regs a) :
    (irq_handler_dispatch h i ps acc).2.regs a = acc.2.regs a := by
  induction ps generalizing acc with
  | nil => rfl
  | cons p rest ih =>
    simp only [irq_handler_dispatch]
    rw [ih _ (fun q hq => hp q (List.mem_cons_of_mem _ hq))]
    exact hp p (List.mem_cons_self _ _) _

theorem irq_handler_bank_fst (h : Nat → aspeed_sgpio → aspeed_sgpio) (i : Nat)
    (bank : aspeed_sgpio_bank) (acc : List Nat × aspeed_sgpio)
    (hs : bank.support_irq = true) :
    (irq_handler_bank h i bank acc).1 =
      acc.1 ++ pending_pins i (acc.2.regs (bank.irq_regs + 16) % 4294967296) := by
  simp [irq_handler_bank, hs, irq_handler_dispatch_fst, pending_pins, ioread32, bank_reg,
    GPIO_IRQ_STATUS]

theorem irq_handler_bank_regs (h : Nat → aspeed_sgpio → aspeed_sgpio) (i : Nat)
    (bank : aspeed_sgpio_bank) (acc : List Nat × aspeed_sgpio) (a : Nat)
    (hp : ∀ p, p < 32 → ∀ g, (h (i * 32 + p) g).regs a = g.regs a) :
    (irq_handler_bank h i bank acc).2.regs a = acc.2.regs a := by
  unfold irq_handler_bank
  by_cases hs : bank.support_irq = true
  · simp only [hs, Bool.not_true, Bool.false_eq_true, if_false]
    rw [irq_handler_dispatch_regs h i _ _ a
      (fun p hp2 g => hp p ((mem_for_each_set_bit _ p).mp hp2).1 g)]
    rfl
  · simp [hs]

/-- The bank loop over the table: banks 0, 1 and 2 are skipped. -/
theorem aspeed_sgpio_irq_handler_unroll (h : Nat → aspeed_sgpio → aspeed_sgpio)
    (gpio : aspeed_sgpio) :
    aspeed_sgpio_irq_handler h gpio =
      irq_handler_bank h 5 ⟨0x0038, 0x0078, 0x0050, 0x003C, true, ["II", "IJ"]⟩
        (irq_handler_bank h 4 ⟨0x001C, 0x0074, 0x0034, 0x0020, true, ["IE", "IF", "IG", "IH"]⟩
          (irq_handler_bank h 3 ⟨0x0000, 0x0070, 0x0018, 0x0004, true, ["IA", "IB", "IC", "ID"]⟩
            ([], gpio))) := by
  rfl

/-- The dispatch list of the handler: the pending pins of banks 3, 4 and 5, each
taken from the word read at that bank's status offset when its turn comes; the
words are those of the initial register contents when handling a pin leaves
alone the status words of the banks after the pin's own. -/
theorem aspeed_sgpio_irq_handler_fst (h : Nat → aspeed_sgpio → aspeed_sgpio)
    (gpio : aspeed_sgpio) :
    ∃ w4 w5 : Nat,
      (aspeed_sgpio_irq_handler h gpio).1 =
        pending_pins 3 (gpio.regs 0x14 % 4294967296) ++
          (pending_pins 4 (w4 % 4294967296) ++ pending_pins 5 (w5 % 4294967296)) ∧
      ((∀ n g bn j b, to_bank n = some bn → bn.support_irq = true →
          aspeed_sgpio_banks[j]? = some b → b.support_irq = true → GPIO_BANK n < j →
          (h n g).regs (bank_reg b aspeed_sgpio_reg.reg_irq_status) =
            g.regs (bank_reg b aspeed_sgpio_reg.reg_irq_status)) →
        w4 = gpio.regs 0x30 ∧ w5 = gpio.regs 0x4c) := by
  refine ⟨(irq_handler_bank h 3 ⟨0x0000, 0x0070, 0x0018, 0x0004, true, ["IA", "IB", "IC", "ID"]⟩
      ([], gpio)).2.regs 0x30,
    (irq_handler_bank h 4 ⟨0x001C, 0x0074, 0x0034, 0x0020, true, ["IE", "IF", "IG", "IH"]⟩
      (irq_handler_bank h 3 ⟨0x0000, 0x0070, 0x0018, 0x0004, true, ["IA", "IB", "IC", "ID"]⟩
        ([], gpio))).2.regs 0x4c, ?_, ?_⟩
  · rw [aspeed_sgpio_irq_handler_unroll, irq_handler_bank_fst h 5 _ _ rfl,
      irq_handler_bank_fst h 4 _ _ rfl, irq_handler_bank_fst h 3 _ _ rfl]
    simp
  · intro hcb
    have hb3 : ∀ p, p < 32 → to_bank (3 * 32 + p) =
        some ⟨0x0000, 0x0070, 0x0018, 0x0004, true, ["IA", "IB", "IC", "ID"]⟩ := by
      intro p hp
      simp only [to_bank, GPIO_BANK_pin 3 p hp]
      rfl
    have hb4 : ∀ p, p < 32 → to_bank (4 * 32 + p) =
        some ⟨0x001C, 0x0074, 0x0034, 0x0020, true, ["IE", "IF", "IG", "IH"]⟩ := by
      intro p hp
      simp only [to_bank, GPIO_BANK_pin 4 p hp]
      rfl
    have h34 : ∀ p, p < 32 → ∀ g, (h (3 * 32 + p) g).regs 0x30 = g.regs 0x30 := by
      intro p hp g
      exact hcb (3 * 32 + p) g _ 4 ⟨0x001C, 0x0074, 0x0034, 0x0020, true, ["IE", "IF", "IG", "IH"]⟩
        (hb3 p hp) rfl rfl rfl (by rw [GPIO_BANK_pin 3 p hp]; decide)
    have h35 : ∀ p, p < 32 → ∀ g, (h (3 * 32 + p) g).regs 0x4c = g.regs 0x4c := by
      intro p hp g
      exact hcb (3 * 32 + p) g _ 5 ⟨0x0038, 0x0078, 0x0050, 0x003C, true, ["II", "IJ"]⟩
        (hb3 p hp) rfl rfl rfl (by rw [GPIO_BANK_pin 3 p hp]; decide)
    have h45 : ∀ p, p < 32 → ∀ g, (h (4 * 32 + p) g).regs 0x4c = g.regs 0x4c := by
      intro p hp g
      exact hcb (4 * 32 + p) g _ 5 ⟨0x0038, 0x0078, 0x0050, 0x003C, true, ["II", "IJ"]⟩
        (hb4 p hp) rfl rfl rfl (by rw [GPIO_BANK_pin 4 p hp]; decide)
    constructor
    · rw [irq_handler_bank_regs h 3 _ _ 0x30 h34]
    · rw [irq_handler_bank_regs h 4 _ _ 0x4c h45, irq_handler_bank_regs h 3 _ _ 0x4c h35]

theorem irq_handler_dispatch_trace (h : Nat → aspeed_sgpio → aspeed_sgpio) (i : Nat)
    (ps : List Nat) (acc : List Nat × aspeed_sgpio)
    (hp : ∀ n g, (h n g).trace = g.trace) :
    (irq_handler_dispatch h i ps acc).2.trace = acc.2.trace := by
  induction ps generalizing acc with
  | nil => rfl
  | cons p rest ih =>
    simp only [irq_handler_dispatch]
    rw [ih, hp]

theorem irq_handler_bank_trace (h : Nat → aspeed_sgpio → aspeed_sgpio) (i : Nat)
    (bank : aspeed_sgpio_bank) (acc : List Nat × aspeed_sgpio)
    (hs : bank.support_irq = true) (hp : ∀ n g, (h n g).trace = g.trace) :
    (irq_handler_bank h i bank acc).2.trace =
      acc.2.trace ++ [RegAccess.rd (bank.irq_regs + 16)] := by
  simp only [irq_handler_bank, hs, Bool.not_true, Bool.false_eq_true, if_false]
  rw [irq_handler_dispatch_trace h i _ _ hp]
  rfl

/-- C12: for every register contents, the pin offsets dispatched by one run of
`aspeed_sgpio_irq_handler` are strictly ascending (so none is dispatched
twice); and, when handling a pin of an interrupt-capable bank leaves alone the
status words of the banks after the pin's own, they are exactly the offsets bank_index * 32 + p with
p < 32 such that the bank supports interrupts and bit p is set in that bank's
interrupt-status register, so a pin with no status bit set is never dispatched
and the list is empty when no bit is set; the handler itself reads each of the
three status registers once and writes nothing. -/
theorem irq_handler_dispatch_sequence (h : Nat → aspeed_sgpio → aspeed_sgpio)
    (gpio : aspeed_sgpio) :
    List.Pairwise (· < ·) (aspeed_sgpio_irq_handler h gpio).1 ∧
    ((∀ n g bn j b, to_bank n = some bn → bn.support_irq = true →
        aspeed_sgpio_banks[j]? = some b → b.support_irq = true → GPIO_BANK n < j →
        (h n g).regs (bank_reg b aspeed_sgpio_reg.reg_irq_status) =
          g.regs (bank_reg b aspeed_sgpio_reg.reg_irq_status)) →
      ∀ n, n ∈ (aspeed_sgpio_irq_handler h gpio).1 ↔
        ∃ i p bank, n = i * 32 + p ∧ p < 32 ∧ aspeed_sgpio_banks[i]? = some bank ∧
          bank.support_irq = true ∧
          (gpio.regs (bank_reg bank aspeed_sgpio_reg.reg_irq_status)).testBit p = true) ∧
    ((∀ n g, (h n g).trace = g.trace) →
      (aspeed_sgpio_irq_handler h gpio).2.trace =
        gpio.trace ++ [RegAccess.rd 0x14, RegAccess.rd 0x30, RegAccess.rd 0x4c]) := by
  obtain ⟨w4, w5, hl, hw⟩ := aspeed_sgpio_irq_handler_fst h gpio
  refine ⟨?_, ?_, ?_⟩
  · rw [hl, List.pairwise_append, List.pairwise_append]
    refine ⟨pending_pins_sorted _ _, ⟨pending_pins_sorted _ _, pending_pins_sorted _ _, ?_⟩, ?_⟩
    · intro a ha b hb
      have h1 := pending_pins_range _ _ _ ha
      have h2 := pending_pins_range _ _ _ hb
      omega
    · intro a ha b hb
      have h1 := pending_pins_range _ _ _ ha
      rcases List.mem_append.mp hb with hb | hb
      · have h2 := pending_pins_range _ _ _ hb
        omega
      · have h2 := pending_pins_range _ _ _ hb
        omega
  · intro hcb n
    obtain ⟨rfl, rfl⟩ := hw hcb
    rw [hl]
    simp only [List.mem_append, mem_pending_pins, testBit_mod32]
    constructor
    · rintro (⟨p, hp, hbit, rfl⟩ | ⟨p, hp, hbit, rfl⟩ | ⟨p, hp, hbit, rfl⟩)
      · exact ⟨3, p, ⟨0x0000, 0x0070, 0x0018, 0x0004, true, ["IA", "IB", "IC", "ID"]⟩, rfl, hp,
          rfl, rfl, by simpa [hp] using hbit⟩
      · exact ⟨4, p, ⟨0x001C, 0x0074, 0x0034, 0x0020, true, ["IE", "IF", "IG", "IH"]⟩, rfl, hp,
          rfl, rfl, by simpa [hp] using hbit⟩
      · exact ⟨5, p, ⟨0x0038, 0x0078, 0x0050, 0x003C, true, ["II", "IJ"]⟩, rfl, hp,
          rfl, rfl, by simpa [hp] using hbit⟩
    · rintro ⟨i, p, bank, rfl, hp, hb, hs, hbit⟩
      rcases i with _ | _ | _ | _ | _ | _ | i
      · simp [aspeed_sgpio_banks] at hb
        subst hb
        simp at hs
      · simp [aspeed_sgpio_banks] at hb
        subst hb
        simp at hs
      · simp [aspeed_sgpio_banks] at hb
        subst hb
        simp at hs
      · simp [aspeed_sgpio_banks] at hb
        subst hb
        exact Or.inl ⟨p, hp, by simpa [hp, bank_reg, GPIO_IRQ_STATUS] using hbit, rfl⟩
      · simp [aspeed_sgpio_banks] at hb
        subst hb
        exact Or.inr (Or.inl ⟨p, hp, by simpa [hp, bank_reg, GPIO_IRQ_STATUS] using hbit, rfl⟩)
      · simp [aspeed_sgpio_banks] at hb
        subst hb
        exact Or.inr (Or.inr ⟨p, hp, by simpa [hp, bank_reg, GPIO_IRQ_STATUS] using hbit, rfl⟩)
      · simp [aspeed_sgpio_banks] at hb
  · intro htr
    rw [aspeed_sgpio_irq_handler_unroll, irq_handler_bank_trace h 5 _ _ rfl htr,
      irq_handler_bank_trace h 4 _ _ rfl htr, irq_handler_bank_trace h 3 _ _ rfl htr]
    simp

/-- Acknowledging a pin of an interrupt-capable bank leaves alone the status
words of the interrupt-capable banks after it. -/
theorem ack_handler_later_status (n : Nat) (g : aspeed_sgpio) (bn : aspeed_sgpio_bank) (j : Nat)
    (b : aspeed_sgpio_bank) (hbn : to_bank n = some bn) (hsn : bn.support_irq = true)
    (hb : aspeed_sgpio_banks[j]? = some b) (hs : b.support_irq = true)
    (hlt : GPIO_BANK n < j) :
    (ack_handler n g).regs (bank_reg b aspeed_sgpio_reg.reg_irq_status) =
      g.regs (bank_reg b aspeed_sgpio_reg.reg_irq_status) := by
  have hack : ack_handler n g = iowrite32 (GPIO_BIT n) (bn.irq_regs + 16) g := by
    simp [ack_handler, aspeed_sgpio_irq_ack, irqd_to_aspeed_sgpio_data, hbn, bank_reg,
      GPIO_IRQ_STATUS]
  have hne : b.irq_regs ≠ bn.irq_regs := by
    unfold to_bank at hbn
    generalize GPIO_BANK n = k at hbn hlt
    rcases j with _ | _ | _ | _ | _ | _ | j <;>
      simp [aspeed_sgpio_banks] at hb <;> subst hb <;> simp at hs <;>
      rcases k with _ | _ | _ | _ | _ | _ | k <;>
      simp [aspeed_sgpio_banks] at hbn <;> subst hbn <;> simp at hsn <;>
      first | omega | simp
  rw [hack]
  simp [iowrite32, hw_store_irq_status (to_bank_mem hbn), bank_reg, GPIO_IRQ_STATUS, hne]

/-- Witness for C12: every register reads 5 (bits 0 and 2 set) and the flow
handler acknowledges each pin; pins 96, 98, 128, 130, 160, 162 are dispatched. -/
theorem irq_handler_dispatch_sequence_witness :
    (aspeed_sgpio_irq_handler ack_handler (fresh_gpio ast_sgpio_bank_props 5)).1 =
      [96, 98, 128, 130, 160, 162] ∧
    List.Pairwise (· < ·)
      (aspeed_sgpio_irq_handler ack_handler (fresh_gpio ast_sgpio_bank_props 5)).1 ∧
    ∀ n, n ∈ (aspeed_sgpio_irq_handler ack_handler (fresh_gpio ast_sgpio_bank_props 5)).1 ↔
      ∃ i p bank, n = i * 32 + p ∧ p < 32 ∧ aspeed_sgpio_banks[i]? = some bank ∧
        bank.support_irq = true ∧
        ((fresh_gpio ast_sgpio_bank_props 5).regs
          (bank_reg bank aspeed_sgpio_reg.reg_irq_status)).testBit p = true :=
  ⟨by decide,
   (irq_handler_dispatch_sequence ack_handler (fresh_gpio ast_sgpio_bank_props 5)).1,
   (irq_handler_dispatch_sequence ack_handler (fresh_gpio ast_sgpio_bank_props 5)).2.1
     (fun n g bn j b hbn hsn hb hs hlt => ack_handler_later_status n g bn j b hbn hsn hb hs hlt)⟩

/-! ## Probe arithmetic -/

theorem probe_clk_div_den (sgpio_freq : Nat) :
    (2 * (sgpio_freq % 2 ^ 32)) % 2 ^ 32 = (2 * sgpio_freq) % 2 ^ 32 := by
  omega

/-- The clamped divisor in terms of the 32-bit product and the wrapped
subtraction. -/
theorem probe_clk_div_eq (src_freq sgpio_freq : Nat) (hsrc : src_freq < 2 ^ 32)
    (hden : (2 * sgpio_freq) % 2 ^ 32 ≠ 0) :
    probe_clk_div src_freq sgpio_freq =
      some (max 1 (min 65535
        ((src_freq / ((2 * sgpio_freq) % 2 ^ 32) + 4294967295) % 4294967296))) := by
  have hmod : src_freq % 2 ^ 32 = src_freq := Nat.mod_eq_of_lt hsrc
  unfold probe_clk_div
  simp only [probe_clk_div_den, hden, if_false, BITS_PER_LONG, hmod,
    ASPEED_SGPIO_CLK_DIV_MIN, ASPEED_SGPIO_CLK_DIV_MAX]
  generalize src_freq / ((2 * sgpio_freq) % 2 ^ 32) = q
  have h1 : (2 : Nat) ^ 32 - 1 = 4294967295 := by norm_num
  have h2 : (2 : Nat) ^ 32 = 4294967296 := by norm_num
  rw [h1, h2, Nat.mod_mod]
  generalize (q + 4294967295) % 4294967296 = c
  by_cases hc1 : c < 1
  · simp only [hc1, if_true]
    congr 1
    omega
  · by_cases hc2 : c > 65535
    · simp only [hc1, hc2, if_true, if_false]
      congr 1
      omega
    · simp only [hc1, hc2, if_false]
      congr 1
      omega

/-- Counterexample to C13 as stated: for a 25.5 MHz source and a 1 MHz bus the
exact quotient is 12.75, which rounds to 13 and gives 12 after subtracting
one, but the probe computes 11. -/
theorem clk_div_not_rounded :
    round_quotient 25500000 (2 * 1000000) = 13 ∧
    clamp (round_quotient 25500000 (2 * 1000000) - 1) 1 65535 = 12 ∧
    probe_clk_div 25500000 1000000 = some 11 := by
  have hr : round_quotient 25500000 (2 * 1000000) = 13 := by
    unfold round_quotient
    rw [round_eq, Int.floor_eq_iff]
    constructor <;> norm_num
  refine ⟨hr, ?_, by decide⟩
  rw [hr]
  decide

/-- C13 (amended): for every source clock rate and requested bus frequency
whose doubling in 32-bit arithmetic is nonzero and not above the source rate,
the divisor computed by the probe is the truncated quotient of the source rate
by that doubling, minus one, clamped to the interval from 1 to 65535. -/
theorem clk_div_truncated_clamped (src_freq sgpio_freq : Nat) (hsrc : src_freq < 2 ^ 32)
    (hden : (2 * sgpio_freq) % 2 ^ 32 ≠ 0) (hq : (2 * sgpio_freq) % 2 ^ 32 ≤ src_freq) :
    probe_clk_div src_freq sgpio_freq =
      some (max 1 (min 65535 (src_freq / ((2 * sgpio_freq) % 2 ^ 32) - 1))) := by
  rw [probe_clk_div_eq src_freq sgpio_freq hsrc hden]
  have hq1 : 1 ≤ src_freq / ((2 * sgpio_freq) % 2 ^ 32) :=
    (Nat.one_le_div_iff (Nat.pos_of_ne_zero hden)).mpr hq
  have hq2 : src_freq / ((2 * sgpio_freq) % 2 ^ 32) < 4294967296 :=
    lt_of_le_of_lt (Nat.div_le_self _ _) (by simpa using hsrc)
  generalize src_freq / ((2 * sgpio_freq) % 2 ^ 32) = q at hq1 hq2
  have hw : (q + 4294967295) % 4294967296 = q - 1 := by omega
  rw [hw]

/-- Witness for C13 (amended): 25.5 MHz source, 1 MHz bus. -/
theorem clk_div_truncated_clamped_witness :
    probe_clk_div 25500000 1000000 =
      some (max 1 (min 65535 (25500000 / ((2 * 1000000) % 2 ^ 32) - 1))) :=
  clk_div_truncated_clamped 25500000 1000000 (by norm_num) (by norm_num) (by norm_num)

/-- Evaluation for C14: with a 24 MHz source and a 24 MHz bus the quotient is
0, the unclamped value 0 - 1 is below 1, and the probe programs 65535: the
subtraction wraps in unsigned arithmetic before the clamp. -/
theorem clk_div_zero_quotient_wraps :
    24000000 / (2 * 24000000) = 0 ∧
    ((24000000 / (2 * 24000000) : Nat) : Int) - 1 < 1 ∧
    probe_clk_div 24000000 24000000 = some 65535 := by
  refine ⟨by decide, by decide, by decide⟩

/-- C15: for every source rate and every requested frequency whose doubling
in 32-bit arithmetic is nonzero, the divisor computed by the probe lies between
1 and 65535, and it is 65535 whenever the quotient minus one exceeds 65535; for
24 MHz and 1 MHz it is 11. -/
theorem clk_div_in_range (src_freq sgpio_freq : Nat) (hsrc : src_freq < 2 ^ 32)
    (hden : (2 * sgpio_freq) % 2 ^ 32 ≠ 0) :
    (∃ d, probe_clk_div src_freq sgpio_freq = some d ∧ 1 ≤ d ∧ d ≤ 65535 ∧
      (65535 < src_freq / ((2 * sgpio_freq) % 2 ^ 32) - 1 → d = 65535) ∧
      (65535 < src_freq / (2 * sgpio_freq) - 1 → d = 65535)) ∧
    probe_clk_div 24000000 1000000 = some 11 := by
  refine ⟨⟨_, probe_clk_div_eq src_freq sgpio_freq hsrc hden, ?_, ?_, ?_, ?_⟩, by decide⟩
  · omega
  · omega
  · intro hbig
    have hq2 : src_freq / ((2 * sgpio_freq) % 2 ^ 32) < 4294967296 :=
      lt_of_le_of_lt (Nat.div_le_self _ _) (by simpa using hsrc)
    generalize src_freq / ((2 * sgpio_freq) % 2 ^ 32) = q at hbig hq2
    omega
  · intro hbig
    have hpos : 0 < src_freq / (2 * sgpio_freq) := by omega
    have hle : 2 * sgpio_freq ≤ src_freq := by
      by_contra hcon
      rw [Nat.div_eq_of_lt (by omega)] at hpos
      exact Nat.lt_irrefl 0 hpos
    have hsmall : (2 * sgpio_freq) % 2 ^ 32 = 2 * sgpio_freq :=
      Nat.mod_eq_of_lt (lt_of_le_of_lt hle hsrc)
    have hq2 : src_freq / (2 * sgpio_freq) < 4294967296 :=
      lt_of_le_of_lt (Nat.div_le_self _ _) (by simpa using hsrc)
    rw [hsmall]
    generalize src_freq / (2 * sgpio_freq) = q at hbig hq2
    omega

/-- Witness for C15: a 200 MHz source with a 1 kHz bus, where the quotient
100000 minus one exceeds 65535. -/
theorem clk_div_in_range_witness :
    (∃ d, probe_clk_div 200000000 1000 = some d ∧ 1 ≤ d ∧ d ≤ 65535 ∧
      (65535 < 200000000 / ((2 * 1000) % 2 ^ 32) - 1 → d = 65535) ∧
      (65535 < 200000000 / (2 * 1000) - 1 → d = 65535)) ∧
    probe_clk_div 24000000 1000000 = some 11 :=
  clk_div_in_range 200000000 1000 (by norm_num) (by norm_num)

/-- C16: for every total logical GPIO count n, the frame-byte count computed
by the probe is n / 16 (integer division) clamped to the interval from 1 to
10; both shipped configurations have n = 192, which gives 12 clamped to 10. -/
theorem nb_gpios_clamped (config : aspeed_sgpio_config) :
    probe_nb_gpios config = max 1 (min 10 (config.nr_gpios / 16)) ∧
    ast2400_config.nr_gpios / 16 = 12 ∧ probe_nb_gpios ast2400_config = 10 ∧
    ast2500_config.nr_gpios / 16 = 12 ∧ probe_nb_gpios ast2500_config = 10 := by
  refine ⟨?_, by decide, by decide, by decide, by decide⟩
  unfold probe_nb_gpios
  simp only [ASPEED_SGPIO_PINBYTES_MIN, ASPEED_SGPIO_PINBYTES_MAX]
  generalize config.nr_gpios / 16 = c
  by_cases hc1 : c < 1
  · simp only [hc1, if_true]
    omega
  · by_cases hc2 : c > 10
    · simp only [hc1, hc2, if_true, if_false]
      omega
    · simp only [hc1, hc2, if_false]
      omega

/-- Counterexample to C18 as stated: a bus-frequency property that is present
with value 0, or with value 2 ^ 31, is used as read, not replaced by the
default, and the divisor computation divides by zero. -/
theorem bus_freq_zero_not_defaulted :
    probe_sgpio_freq (some 0) = 0 ∧
    probe_sgpio_freq (some 0) ≠ ASPEED_SGPIO_BUS_FREQ_DEFAULT ∧
    probe_clk_div 24000000 (probe_sgpio_freq (some 0)) = none ∧
    probe_sgpio_freq (some (2 ^ 31)) ≠ ASPEED_SGPIO_BUS_FREQ_DEFAULT ∧
    probe_clk_div 24000000 (probe_sgpio_freq (some (2 ^ 31))) = none := by
  refine ⟨by decide, by decide, by decide, by decide, by decide⟩

/-- C18 (amended): if the bus-frequency property cannot be read, the probe
uses the default 1,000,000 Hz and the divisor computation does not divide by
zero; a property that is present is used as read, and the divisor computation
does not divide by zero for any 32-bit value other than 0 and 2 ^ 31. -/
theorem bus_freq_default_when_absent (src_freq v : Nat) (hv : v < 2 ^ 32) :
    probe_sgpio_freq none = 1000000 ∧
    (probe_clk_div src_freq (probe_sgpio_freq none)).isSome = true ∧
    probe_sgpio_freq (some v) = v ∧
    (v ≠ 0 → v ≠ 2 ^ 31 →
      (probe_clk_div src_freq (probe_sgpio_freq (some v))).isSome = true) := by
  have hmod : v % 2 ^ 32 = v := Nat.mod_eq_of_lt hv
  refine ⟨rfl, ?_, ?_, ?_⟩
  · simp [probe_clk_div, probe_sgpio_freq, ASPEED_SGPIO_BUS_FREQ_DEFAULT]
    split_ifs <;> rfl
  · simp only [probe_sgpio_freq, hmod]
  · intro h0 h31
    have hden : (2 * (v % 2 ^ 32 % 2 ^ 32)) % 2 ^ 32 ≠ 0 := by omega
    simp only [probe_clk_div, probe_sgpio_freq, hden, if_false]
    split_ifs <;> rfl

/-- Witness for C18 (amended): a 24 MHz source and a property of 2 MHz. -/
theorem bus_freq_default_when_absent_witness :
    probe_sgpio_freq none = 1000000 ∧
    (probe_clk_div 24000000 (probe_sgpio_freq none)).isSome = true ∧
    probe_sgpio_freq (some 2000000) = 2000000 ∧
    (2000000 ≠ 0 → 2000000 ≠ 2 ^ 31 →
      (probe_clk_div 24000000 (probe_sgpio_freq (some 2000000))).isSome = true) :=
  bus_freq_default_when_absent 24000000 2000000 (by norm_num)

/-! ## Interrupt and tolerance setup -/

theorem aspeed_sgpio_setup_irqs_snd (gpio : aspeed_sgpio) (platform_irq : Int)
    (parents_ok : Bool) :
    (aspeed_sgpio_setup_irqs gpio platform_irq parents_ok).2 =
      aspeed_sgpio_banks.foldl setup_irqs_bank gpio := by
  unfold aspeed_sgpio_setup_irqs
  split_ifs <;> rfl

/-- Counterexample to C17 as stated: after `aspeed_sgpio_setup_irqs` the type1
register of bank 3 (offset 0x0c) holds 0xffffffff, not 0. -/
theorem setup_irqs_type1_all_ones :
    to_bank 96 = some ⟨0x0000, 0x0070, 0x0018, 0x0004, true, ["IA", "IB", "IC", "ID"]⟩ ∧
    (aspeed_sgpio_setup_irqs (fresh_gpio ast_sgpio_bank_props 0) 5 true).2.regs 0x0c =
      0xffffffff ∧
    (aspeed_sgpio_setup_irqs (fresh_gpio ast_sgpio_bank_props 0) 5 true).2.regs 0x0c ≠ 0 := by
  refine ⟨by decide, by decide, by decide⟩

/-- C17 (amended): after `aspeed_sgpio_setup_irqs` has run from any register
contents, every bank's tolerance register is 0, and for every
interrupt-capable bank the interrupt-enable register is 0, the status register
has been written with all-ones, and the trigger-type registers hold
type0 = 0xffffffff, type1 = 0xffffffff, type2 = 0. -/
theorem setup_irqs_registers (gpio : aspeed_sgpio) (platform_irq : Int) (parents_ok : Bool)
    (bank : aspeed_sgpio_bank) (hm : bank ∈ aspeed_sgpio_banks) :
    (aspeed_sgpio_setup_irqs gpio platform_irq parents_ok).2.regs
        (bank_reg bank aspeed_sgpio_reg.reg_tolerance) = 0 ∧
    (bank.support_irq = true →
      (aspeed_sgpio_setup_irqs gpio platform_irq parents_ok).2.regs
          (bank_reg bank aspeed_sgpio_reg.reg_irq_enable) = 0 ∧
      RegAccess.wr 0xffffffff (bank_reg bank aspeed_sgpio_reg.reg_irq_status) ∈
        (aspeed_sgpio_setup_irqs gpio platform_irq parents_ok).2.trace ∧
      (aspeed_sgpio_setup_irqs gpio platform_irq parents_ok).2.regs
          (bank_reg bank aspeed_sgpio_reg.reg_irq_type0) = 0xffffffff ∧
      (aspeed_sgpio_setup_irqs gpio platform_irq parents_ok).2.regs
          (bank_reg bank aspeed_sgpio_reg.reg_irq_type1) = 0xffffffff ∧
      (aspeed_sgpio_setup_irqs gpio platform_irq parents_ok).2.regs
          (bank_reg bank aspeed_sgpio_reg.reg_irq_type2) = 0) := by
  rw [aspeed_sgpio_setup_irqs_snd]
  simp only [aspeed_sgpio_banks, List.mem_cons, List.mem_singleton, List.not_mem_nil,
    or_false] at hm
  rcases hm with rfl | rfl | rfl | rfl | rfl | rfl <;>
    simp [aspeed_sgpio_banks, setup_irqs_bank, iowrite32, hw_store, bank_reg, List.find?,
      GPIO_IRQ_ENABLE, GPIO_IRQ_TYPE0, GPIO_IRQ_TYPE1, GPIO_IRQ_TYPE2, GPIO_IRQ_STATUS]

/-- Witness for C17 (amended): bank 3 from registers that all read 0xdeadbeef. -/
theorem setup_irqs_registers_witness :
    (⟨0x0000, 0x0070, 0x0018, 0x0004, true, ["IA", "IB", "IC", "ID"]⟩ : aspeed_sgpio_bank) ∈
      aspeed_sgpio_banks ∧
    (aspeed_sgpio_setup_irqs (fresh_gpio ast_sgpio_bank_props 0xdeadbeef) 5 true).2.regs 0x18 =
      0 ∧
    (aspeed_sgpio_setup_irqs (fresh_gpio ast_sgpio_bank_props 0xdeadbeef) 5 true).2.regs 0x0c =
      0xffffffff :=
  ⟨by decide,
   (setup_irqs_registers (fresh_gpio ast_sgpio_bank_props 0xdeadbeef) 5 true
     ⟨0x0000, 0x0070, 0x0018, 0x0004, true, ["IA", "IB", "IC", "ID"]⟩ (by decide)).1,
   ((setup_irqs_registers (fresh_gpio ast_sgpio_bank_props 0xdeadbeef) 5 true
     ⟨0x0000, 0x0070, 0x0018, 0x0004, true, ["IA", "IB", "IC", "ID"]⟩ (by decide)).2
       rfl).2.2.2.1⟩

/-! ## Interrupt validity mask -/

theorem mem_for_each_clear_bit (w o : Nat) :
    o ∈ for_each_clear_bit w ↔ o < 32 ∧ w.testBit o = false := by
  simp [for_each_clear_bit, List.mem_filter, List.mem_range]

theorem for_each_clear_bit_sorted (w : Nat) :
    List.Pairwise (· < ·) (for_each_clear_bit w) :=
  (List.pairwise_lt_range 32).sublist (List.filter_sublist _)

theorem GPIO_OFFSET_eq_mod (x : Nat) : GPIO_OFFSET x = x % 32 := by
  have h := Nat.and_pow_two_sub_one_eq_mod x 5
  simpa [GPIO_OFFSET] using h

theorem GPIO_BANK_eq_div (x : Nat) : GPIO_BANK x = x / 32 := by
  simp [GPIO_BANK, Nat.shiftRight_eq_div_pow]

/-- A pin is `bank * 32 + o` with `o < 32` exactly for its own bank and bit. -/
theorem pin_decompose (bank o pin : Nat) (ho : o < 32) :
    bank * 32 + o = pin ↔ bank = GPIO_BANK pin ∧ o = GPIO_OFFSET pin := by
  rw [GPIO_OFFSET_eq_mod, GPIO_BANK_eq_div]
  omega

/-- The inner loop of the validity mask clears exactly the pins it names. -/
theorem valid_mask_clear_spec (ngpio bank : Nat) (hbank : bank < 2 ^ 27) (pin : Nat)
    (hpin : pin < ngpio) (l : List Nat) (hs : List.Pairwise (· < ·) l)
    (hl : ∀ o ∈ l, o < 32) (m : Nat → Bool) :
    valid_mask_clear ngpio bank l m pin = true ↔
      m pin = true ∧ ∀ o ∈ l, bank * 32 + o ≠ pin := by
  induction l generalizing m with
  | nil => simp [valid_mask_clear]
  | cons o rest ih =>
    have ho : o < 32 := hl o (List.mem_cons_self _ _)
    have hi : (bank * 32 + o) % 2 ^ 32 = bank * 32 + o := by
      apply Nat.mod_eq_of_lt
      have h27 : (2 : Nat) ^ 27 = 134217728 := by norm_num
      have h32 : (2 : Nat) ^ 32 = 4294967296 := by norm_num
      omega
    have hrest : ∀ q, q ∈ rest → o < q := fun q hq => List.rel_of_pairwise_cons hs hq
    simp only [valid_mask_clear, hi]
    by_cases hge : bank * 32 + o ≥ ngpio
    · simp only [hge, if_true]
      constructor
      · intro hm
        refine ⟨hm, ?_⟩
        intro o2 ho2
        rcases List.mem_cons.mp ho2 with rfl | hin
        · omega
        · have := hrest o2 hin
          omega
      · intro hm
        exact hm.1
    · simp only [hge, if_false]
      rw [ih (List.Pairwise.of_cons hs) (fun q hq => hl q (List.mem_cons_of_mem _ hq))]
      simp only [List.mem_cons, forall_eq_or_imp]
      by_cases hp : pin = bank * 32 + o
      · simp [hp]
      · have hp2 : bank * 32 + o ≠ pin := fun e => hp e.symm
        simp [hp, hp2]

/-- The validity mask keeps a pin below `ngpio` exactly when no entry before the
sentinel names it with a clear input bit. -/
theorem valid_mask_loop_spec (ngpio pin : Nat) (hpin : pin < ngpio)
    (props : List aspeed_bank_props)
    (hb : ∀ e ∈ entries_before_sentinel props, e.bank < 2 ^ 27) (m : Nat → Bool) :
    valid_mask_loop ngpio props m pin = true ↔
      m pin = true ∧ ∀ e ∈ entries_before_sentinel props,
        ∀ o, o < 32 → e.input.testBit o = false → e.bank * 32 + o ≠ pin := by
  induction props generalizing m with
  | nil => simp [valid_mask_loop, entries_before_sentinel]
  | cons e rest ih =>
    by_cases hs : is_bank_props_sentinel e = true
    · simp [valid_mask_loop, entries_before_sentinel, List.takeWhile, hs]
    · have hent : entries_before_sentinel (e :: rest) = e :: entries_before_sentinel rest := by
        simp [entries_before_sentinel, List.takeWhile, hs]
      rw [hent] at hb
      simp only [valid_mask_loop, hs, if_false, Bool.false_eq_true, hent]
      rw [ih (fun x hx => hb x (List.mem_cons_of_mem _ hx)),
        valid_mask_clear_spec ngpio e.bank (hb e (List.mem_cons_self _ _)) pin hpin _
          (for_each_clear_bit_sorted _) (fun o ho => ((mem_for_each_clear_bit _ o).mp ho).1)]
      simp only [List.mem_cons, forall_eq_or_imp, mem_for_each_clear_bit]
      constructor
      · rintro ⟨⟨hm, he⟩, hr⟩
        exact ⟨hm, fun o ho hbit => he o ⟨ho, hbit⟩, hr⟩
      · rintro ⟨hm, he, hr⟩
        exact ⟨⟨hm, fun o ho => he o ho.1 ho.2⟩, hr⟩

/-- With each bank named at most once before the sentinel, a pin is
input-capable exactly when every entry naming its bank has its input bit set. -/
theorem have_input_iff_entries (gpio : aspeed_sgpio) (offset : Nat)
    (hu : ∀ e1 ∈ entries_before_sentinel gpio.config.props,
      ∀ e2 ∈ entries_before_sentinel gpio.config.props, e1.bank = e2.bank → e1 = e2) :
    have_input gpio offset = true ↔
      ∀ e ∈ entries_before_sentinel gpio.config.props, e.bank = GPIO_BANK offset →
        e.input.testBit (GPIO_OFFSET offset) = true := by
  unfold have_input find_bank_props
  rw [find_bank_props_in_eq_find]
  cases hfind : (entries_before_sentinel gpio.config.props).find?
      (fun p => p.bank == GPIO_BANK offset) with
  | none =>
    simp only [true_iff]
    intro e he hbank
    have := List.find?_eq_none.mp hfind e he
    simp [hbank] at this
  | some e0 =>
    have hmem := List.mem_of_find?_eq_some hfind
    have hbank0 : e0.bank = GPIO_BANK offset := by simpa using List.find?_some hfind
    simp only [land_GPIO_BIT_ne_zero]
    constructor
    · intro hbit e he hbank
      rw [hu e he e0 hmem (hbank.trans hbank0.symm)]
      exact hbit
    · intro hall
      exact hall e0 hmem hbank0

/-- Counterexample to C19 as stated: pin 0 of the shipped configuration is
output-capable, yet the validity mask does not keep it. -/
theorem irq_valid_mask_drops_output_pin :
    0 < (fresh_gpio ast_sgpio_bank_props 0).config.nr_gpios ∧
    have_output (fresh_gpio ast_sgpio_bank_props 0) 0 = true ∧
    aspeed_sgpio_init_irq_valid_mask (fresh_gpio ast_sgpio_bank_props 0) (fun _ => true) 0 =
      false := by
  refine ⟨by decide, by decide, by decide⟩

/-- C19 (amended): for every configuration whose entries before the sentinel
have bank indices below 2 ^ 27 and every pin offset below the logical GPIO
count, the validity mask produced by `aspeed_sgpio_init_irq_valid_mask` from an
all-valid mask keeps the pin exactly when every entry before the sentinel that
names the pin's bank has the pin's input bit set; when the table names each
bank at most once, that is exactly when the pin is input-capable
(`have_input`). -/
theorem irq_valid_mask_input (gpio : aspeed_sgpio) (offset : Nat)
    (hoff : offset < gpio.config.nr_gpios)
    (hbank : ∀ e ∈ entries_before_sentinel gpio.config.props, e.bank < 2 ^ 27) :
    (aspeed_sgpio_init_irq_valid_mask gpio (fun _ => true) offset = true ↔
      ∀ e ∈ entries_before_sentinel gpio.config.props, e.bank = GPIO_BANK offset →
        e.input.testBit (GPIO_OFFSET offset) = true) ∧
    ((∀ e1 ∈ entries_before_sentinel gpio.config.props,
        ∀ e2 ∈ entries_before_sentinel gpio.config.props, e1.bank = e2.bank → e1 = e2) →
      (aspeed_sgpio_init_irq_valid_mask gpio (fun _ => true) offset = true ↔
        have_input gpio offset = true)) := by
  have hmain : aspeed_sgpio_init_irq_valid_mask gpio (fun _ => true) offset = true ↔
      ∀ e ∈ entries_before_sentinel gpio.config.props, e.bank = GPIO_BANK offset →
        e.input.testBit (GPIO_OFFSET offset) = true := by
    unfold aspeed_sgpio_init_irq_valid_mask
    rw [valid_mask_loop_spec _ offset hoff _ hbank]
    simp only [true_and]
    constructor
    · intro h e he hb
      by_contra hbit
      have hbit2 : e.input.testBit (GPIO_OFFSET offset) = false := by simpa using hbit
      exact h e he (GPIO_OFFSET offset) (GPIO_OFFSET_lt offset) hbit2
        ((pin_decompose e.bank _ offset (GPIO_OFFSET_lt offset)).mpr ⟨hb, rfl⟩)
    · intro h e he o ho hbit hpin
      obtain ⟨hb, rfl⟩ := (pin_decompose e.bank o offset ho).mp hpin
      rw [h e he hb] at hbit
      exact Bool.noConfusion hbit
  exact ⟨hmain, fun hu => hmain.trans (have_input_iff_entries gpio offset hu).symm⟩

/-- Witness for C19 (amended): pin 170 (bank 5, bit 10) of the shipped
configuration. -/
theorem irq_valid_mask_input_witness :
    170 < (fresh_gpio ast_sgpio_bank_props 0).config.nr_gpios ∧
    (∀ e ∈ entries_before_sentinel (fresh_gpio ast_sgpio_bank_props 0).config.props,
      e.bank < 2 ^ 27) ∧
    (∀ e1 ∈ entries_before_sentinel (fresh_gpio ast_sgpio_bank_props 0).config.props,
      ∀ e2 ∈ entries_before_sentinel (fresh_gpio ast_sgpio_bank_props 0).config.props,
        e1.bank = e2.bank → e1 = e2) ∧
    (aspeed_sgpio_init_irq_valid_mask (fresh_gpio ast_sgpio_bank_props 0) (fun _ => true) 170 =
        true ↔
      have_input (fresh_gpio ast_sgpio_bank_props 0) 170 = true) :=
  ⟨by decide, by decide, by decide,
   (irq_valid_mask_input (fresh_gpio ast_sgpio_bank_props 0) 170 (by decide) (by decide)).2
     (by decide)⟩

/-! ## Persistence tolerance -/

/-- A write to a bank's tolerance offset stores the word there and nowhere
else. -/
theorem hw_store_tolerance {bank : aspeed_sgpio_bank} (hm : bank ∈ aspeed_sgpio_banks)
    (regs : Nat → Nat) (v : Nat) :
    hw_store regs v bank.tolerance_reg =
      fun a => if a = bank.tolerance_reg then v else regs a := by
  simp only [aspeed_sgpio_banks, List.mem_cons, List.mem_singleton, List.not_mem_nil,
    or_false] at hm
  rcases hm with rfl | rfl | rfl | rfl | rfl | rfl <;>
    simp [hw_store, aspeed_sgpio_banks, List.find?, GPIO_IRQ_STATUS]

/-- The instance `aspeed_sgpio_reset_tolerance` leaves. -/
theorem aspeed_sgpio_reset_tolerance_ok (gpio : aspeed_sgpio) (offset : Nat)
    (bank : aspeed_sgpio_bank) (enable : Bool) (hb : to_bank offset = some bank) :
    aspeed_sgpio_reset_tolerance gpio offset enable =
      some (0, iowrite32
        (if enable = true then
          (gpio.regs bank.tolerance_reg % 4294967296 ||| GPIO_BIT offset) % 4294967296
        else gpio.regs bank.tolerance_reg % 4294967296 &&& not32 (GPIO_BIT offset))
        bank.tolerance_reg (ioread32 gpio bank.tolerance_reg).2) := by
  simp only [aspeed_sgpio_reset_tolerance, hb, bank_reg, ioread32]
  rfl

/-- Bits of the tolerance register after `aspeed_sgpio_reset_tolerance`. -/
theorem reset_tolerance_bits (gpio : aspeed_sgpio) (offset : Nat) (bank : aspeed_sgpio_bank)
    (enable : Bool) (hm : bank ∈ aspeed_sgpio_banks) (i : Nat) :
    ((iowrite32
        (if enable = true then
          (gpio.regs bank.tolerance_reg % 4294967296 ||| GPIO_BIT offset) % 4294967296
        else gpio.regs bank.tolerance_reg % 4294967296 &&& not32 (GPIO_BIT offset))
        bank.tolerance_reg (ioread32 gpio bank.tolerance_reg).2).regs
      bank.tolerance_reg).testBit i =
    (decide (i < 32) &&
      (if GPIO_OFFSET offset = i then enable else (gpio.regs bank.tolerance_reg).testBit i)) := by
  have h32 : (2 : Nat) ^ 32 = 4294967296 := by norm_num
  cases enable
  · simp only [iowrite32, ioread32, hw_store_tolerance hm, if_true, Bool.false_eq_true,
      if_false, h32]
    rw [testBit_clear_bit]
    by_cases hi : GPIO_OFFSET offset = i <;> simp [hi]
  · simp only [iowrite32, ioread32, hw_store_tolerance hm, if_true, h32]
    rw [Nat.mod_mod, testBit_set_bit]
    by_cases hi : GPIO_OFFSET offset = i <;> simp [hi]

/-- C20: for every pin and boolean enable, `aspeed_sgpio_reset_tolerance`
returns 0 and leaves bit (offset & 31) of the tolerance register of the pin's
bank equal to enable, the other 31 bits of that register and every register at
another address unchanged; a second call with the same argument returns 0 and
leaves the register window as the first call left it. -/
theorem reset_tolerance_effect (gpio : aspeed_sgpio) (offset : Nat) (bank : aspeed_sgpio_bank)
    (enable : Bool) (hb : to_bank offset = some bank) :
    ∃ g, aspeed_sgpio_reset_tolerance gpio offset enable = some (0, g) ∧
      (g.regs (bank_reg bank aspeed_sgpio_reg.reg_tolerance)).testBit (GPIO_OFFSET offset) =
        enable ∧
      (∀ i, i < 32 → i ≠ GPIO_OFFSET offset →
        (g.regs (bank_reg bank aspeed_sgpio_reg.reg_tolerance)).testBit i =
          (gpio.regs (bank_reg bank aspeed_sgpio_reg.reg_tolerance)).testBit i) ∧
      (∀ a, a ≠ bank_reg bank aspeed_sgpio_reg.reg_tolerance → g.regs a = gpio.regs a) ∧
      ∃ g2, aspeed_sgpio_reset_tolerance g offset enable = some (0, g2) ∧ g2.regs = g.regs := by
  have hm := to_bank_mem hb
  have hlt := GPIO_OFFSET_lt offset
  refine ⟨_, aspeed_sgpio_reset_tolerance_ok gpio offset bank enable hb, ?_, ?_, ?_,
    ⟨_, aspeed_sgpio_reset_tolerance_ok _ offset bank enable hb, ?_⟩⟩
  · simp only [bank_reg]
    rw [reset_tolerance_bits gpio offset bank enable hm]
    simp [hlt]
  · intro i hi hne
    have hne2 : ¬ GPIO_OFFSET offset = i := fun e => hne e.symm
    simp only [bank_reg]
    rw [reset_tolerance_bits gpio offset bank enable hm]
    simp [hi, hne2]
  · intro a ha
    simp only [bank_reg] at ha
    simp [iowrite32, ioread32, hw_store_tolerance hm, ha]
  · funext a
    by_cases ha : a = bank.tolerance_reg
    · subst ha
      apply Nat.eq_of_testBit_eq
      intro i
      rw [reset_tolerance_bits _ offset bank enable hm, reset_tolerance_bits gpio offset bank
        enable hm]
      by_cases hi : i < 32 <;> by_cases hk : GPIO_OFFSET offset = i <;> simp [hi, hk]
    · simp [iowrite32, ioread32, hw_store_tolerance hm, ha]

/-- Witness for C20: enabling tolerance on pin 37 (bank 1, bit 5) with every
register reading 0. -/
theorem reset_tolerance_effect_witness :
    to_bank 37 = some ⟨0x001C, 0x0074, 0x0034, 0x0020, false, ["OE", "OF", "OG", "OH"]⟩ ∧
    ∃ g, aspeed_sgpio_reset_tolerance (fresh_gpio ast_sgpio_bank_props 0) 37 true =
        some (0, g) ∧
      (g.regs 0x34).testBit (GPIO_OFFSET 37) = true ∧
      ∃ g2, aspeed_sgpio_reset_tolerance g 37 true = some (0, g2) ∧ g2.regs = g.regs :=
  ⟨by decide,
   match reset_tolerance_effect (fresh_gpio ast_sgpio_bank_props 0) 37
      ⟨0x001C, 0x0074, 0x0034, 0x0020, false, ["OE", "OF", "OG", "OH"]⟩ true (by decide) with
   | ⟨g, hg, hbit, _, _, hidem⟩ => ⟨g, hg, hbit, hidem⟩⟩

/-! ## Reading and driving a pin -/

/-- C21: for every pin and register contents, `aspeed_sgpio_get` makes one
read and no write, leaves the register window as it was, and returns 0 or 1:
bit (offset & 31) of the bank's write-latch (rdata) register when the pin is
output-capable, and bit (offset & 31) of the bank's current-value (val)
register otherwise. -/
theorem get_reads_latch_or_value (gpio : aspeed_sgpio) (offset : Nat)
    (bank : aspeed_sgpio_bank) (hb : to_bank offset = some bank) :
    ∃ v g, aspeed_sgpio_get gpio offset = some (v, g) ∧
      g.regs = gpio.regs ∧
      (∀ w a, RegAccess.wr w a ∈ g.trace → RegAccess.wr w a ∈ gpio.trace) ∧
      (v = 0 ∨ v = 1) ∧
      (have_output gpio offset = true →
        g.trace = gpio.trace ++ [RegAccess.rd bank.rdata_reg] ∧
        v = if (gpio.regs bank.rdata_reg).testBit (GPIO_OFFSET offset) then 1 else 0) ∧
      (have_output gpio offset = false →
        g.trace = gpio.trace ++ [RegAccess.rd bank.val_reg] ∧
        v = if (gpio.regs bank.val_reg).testBit (GPIO_OFFSET offset) then 1 else 0) := by
  have hlt := GPIO_OFFSET_lt offset
  cases ho : have_output gpio offset
  · refine ⟨if (gpio.regs bank.val_reg).testBit (GPIO_OFFSET offset) then 1 else 0,
      (ioread32 gpio bank.val_reg).2, ?_, rfl, ?_, ?_, ?_, ?_⟩
    · simp [aspeed_sgpio_get, ho, hb, bank_reg, ioread32, land_GPIO_BIT_ne_zero,
        testBit_mod32, hlt]
    · intro w a hw
      simpa [ioread32] using hw
    · split_ifs <;> simp
    · intro hcon
      exact Bool.noConfusion hcon
    · intro _
      exact ⟨rfl, rfl⟩
  · refine ⟨if (gpio.regs bank.rdata_reg).testBit (GPIO_OFFSET offset) then 1 else 0,
      (ioread32 gpio bank.rdata_reg).2, ?_, rfl, ?_, ?_, ?_, ?_⟩
    · simp [aspeed_sgpio_get, ho, hb, bank_reg, ioread32, land_GPIO_BIT_ne_zero,
        testBit_mod32, hlt]
    · intro w a hw
      simpa [ioread32] using hw
    · split_ifs <;> simp
    · intro _
      exact ⟨rfl, rfl⟩
    · intro hcon
      exact Bool.noConfusion hcon

/-- Witness for C21: pin 100 (bank 3, input only, bit 4) with every register
reading 0x10: the value register at offset 0 is read and 1 is returned. -/
theorem get_reads_latch_or_value_witness :
    to_bank 100 = some ⟨0x0000, 0x0070, 0x0018, 0x0004, true, ["IA", "IB", "IC", "ID"]⟩ ∧
    have_output (fresh_gpio ast_sgpio_bank_props 0x10) 100 = false ∧
    ∃ v g, aspeed_sgpio_get (fresh_gpio ast_sgpio_bank_props 0x10) 100 = some (v, g) ∧
      g.regs = (fresh_gpio ast_sgpio_bank_props 0x10).regs ∧
      g.trace = [RegAccess.rd 0x0000] ∧ v = 1 :=
  ⟨by decide, by decide,
   match get_reads_latch_or_value (fresh_gpio ast_sgpio_bank_props 0x10) 100
      ⟨0x0000, 0x0070, 0x0018, 0x0004, true, ["IA", "IB", "IC", "ID"]⟩ (by decide) with
   | ⟨v, g, hg, hregs, _, _, _, hval⟩ =>
     ⟨v, g, hg, hregs, (hval (by decide)).1, (hval (by decide)).2.trans (by decide)⟩⟩

/-- C22: for every output-capable pin and value v, `aspeed_sgpio_set` reads the
bank's write-latch (rdata) register and then makes exactly one write, to the
current-value (val) register of the pin's bank; the word written is a 32-bit
word whose bit (offset & 31) is set when v is nonzero and clear when v is
zero, and whose other 31 bits are those of the latch word. -/
theorem set_single_write (gpio : aspeed_sgpio) (offset : Nat) (bank : aspeed_sgpio_bank)
    (v : Int) (hb : to_bank offset = some bank) (ho : have_output gpio offset = true) :
    ∃ g w, aspeed_sgpio_set gpio offset v = some g ∧
      g.trace = gpio.trace ++ [RegAccess.rd (bank_reg bank aspeed_sgpio_reg.reg_rdata),
        RegAccess.wr w (bank_reg bank aspeed_sgpio_reg.reg_val)] ∧
      w < 2 ^ 32 ∧
      w.testBit (GPIO_OFFSET offset) = decide (v ≠ 0) ∧
      (∀ i, i < 32 → i ≠ GPIO_OFFSET offset →
        w.testBit i = (gpio.regs (bank_reg bank aspeed_sgpio_reg.reg_rdata)).testBit i) := by
  have hlt := GPIO_OFFSET_lt offset
  have h32 : (2 : Nat) ^ 32 = 4294967296 := by norm_num
  refine ⟨_, set_word gpio bank offset v % 4294967296,
    aspeed_sgpio_set_output gpio offset bank v hb ho, ?_, ?_, ?_, ?_⟩
  · simp [iowrite32, ioread32, bank_reg]
  · rw [h32]
    exact Nat.mod_lt _ (by norm_num)
  · by_cases hv : v = 0
    · simp only [set_word, hv, ne_eq, not_true_eq_false, if_false, h32, decide_False]
      rw [testBit_clear_bit]
      simp [hlt]
    · simp only [set_word, hv, ne_eq, not_false_eq_true, if_true, h32, decide_True]
      rw [Nat.mod_mod, testBit_set_bit]
      simp [hlt]
  · intro i hi hne
    have hne2 : ¬ GPIO_OFFSET offset = i := fun e => hne e.symm
    by_cases hv : v = 0
    · simp only [set_word, hv, ne_eq, not_true_eq_false, if_false, h32, bank_reg]
      rw [testBit_clear_bit]
      simp [hi, hne2]
    · simp only [set_word, hv, ne_eq, not_false_eq_true, if_true, h32, bank_reg]
      rw [Nat.mod_mod, testBit_set_bit]
      simp [hi, hne2]

/-- Witness for C22: driving pin 37 (bank 1, bit 5) to 1 with every register
reading 0x3: the latch at 0x74 is read and 0x23 is written to 0x1c. -/
theorem set_single_write_witness :
    to_bank 37 = some ⟨0x001C, 0x0074, 0x0034, 0x0020, false, ["OE", "OF", "OG", "OH"]⟩ ∧
    have_output (fresh_gpio ast_sgpio_bank_props 0x3) 37 = true ∧
    aspeed_sgpio_set (fresh_gpio ast_sgpio_bank_props 0x3) 37 1 =
      some (iowrite32 0x23 0x1c (ioread32 (fresh_gpio ast_sgpio_bank_props 0x3) 0x74).2) ∧
    ∃ g w, aspeed_sgpio_set (fresh_gpio ast_sgpio_bank_props 0x3) 37 1 = some g ∧
      g.trace = [RegAccess.rd 0x74, RegAccess.wr w 0x1c] ∧
      w.testBit (GPIO_OFFSET 37) = decide ((1 : Int) ≠ 0) :=
  ⟨by decide, by decide, rfl,
   match set_single_write (fresh_gpio ast_sgpio_bank_props 0x3) 37
      ⟨0x001C, 0x0074, 0x0034, 0x0020, false, ["OE", "OF", "OG", "OH"]⟩ 1 (by decide)
      (by decide) with
   | ⟨g, w, hg, ht, _, hbit, _⟩ => ⟨g, w, hg, ht, hbit⟩⟩

/-! ## Interrupt operations on banks without interrupt support -/

/-- Evaluation for C23: pin 5 lies in bank 0, whose support_irq is false.
Masking, unmasking and setting the type leave the instance untouched, but
`aspeed_sgpio_irq_ack` writes 0x20 to the interrupt-status offset 0x14 and so
clears bit 5 of the status register, which bank 3 shares. -/
theorem irq_ack_ignores_support_irq :
    to_bank 5 = some ⟨0x0000, 0x0070, 0x0018, 0x0004, false, ["OA", "OB", "OC", "OD"]⟩ ∧
    aspeed_sgpio_irq_mask (fresh_gpio ast_sgpio_bank_props 0xffffffff) 5 =
      some (fresh_gpio ast_sgpio_bank_props 0xffffffff) ∧
    aspeed_sgpio_irq_unmask (fresh_gpio ast_sgpio_bank_props 0xffffffff) 5 =
      some (fresh_gpio ast_sgpio_bank_props 0xffffffff) ∧
    aspeed_sgpio_set_type (fresh_gpio ast_sgpio_bank_props 0xffffffff) 5 IRQ_TYPE_EDGE_RISING =
      some (-ENOTSUPP, fresh_gpio ast_sgpio_bank_props 0xffffffff) ∧
    (aspeed_sgpio_irq_ack (fresh_gpio ast_sgpio_bank_props 0xffffffff) 5).map
      (fun g => g.trace) = some [RegAccess.wr 0x20 0x14] ∧
    (aspeed_sgpio_irq_ack (fresh_gpio ast_sgpio_bank_props 0xffffffff) 5).map
      (fun g => g.regs 0x14) = some 0xffffffdf ∧
    (fresh_gpio ast_sgpio_bank_props 0xffffffff).regs 0x14 = 0xffffffff ∧
    bank_reg ⟨0x0000, 0x0070, 0x0018, 0x0004, true, ["IA", "IB", "IC", "ID"]⟩
      aspeed_sgpio_reg.reg_irq_status = 0x14 := by
  refine ⟨by decide, rfl, rfl, rfl, by decide, by decide, rfl, rfl⟩

/-! ## Coverage of the bank table -/

/-- C26: for each shipped configuration and every pin offset below its
nr_gpios (192), the bank index offset >> 5 is below the number of entries of
`aspeed_sgpio_banks` (6), so `to_bank` points inside the table; and every
offset dispatched by `aspeed_sgpio_irq_handler` is below nr_gpios. -/
theorem shipped_pins_in_table (config : aspeed_sgpio_config)
    (hc : config = ast2400_config ∨ config = ast2500_config) (offset : Nat)
    (ho : offset < config.nr_gpios) :
    aspeed_sgpio_banks.length = 6 ∧
    GPIO_BANK offset < aspeed_sgpio_banks.length ∧
    (∃ bank, to_bank offset = some bank) ∧
    ∀ (h : Nat → aspeed_sgpio → aspeed_sgpio) (gpio : aspeed_sgpio),
      ∀ n ∈ (aspeed_sgpio_irq_handler h gpio).1, n < config.nr_gpios := by
  have hn : config.nr_gpios = 192 := by
    rcases hc with rfl | rfl <;> rfl
  have hlen : aspeed_sgpio_banks.length = 6 := rfl
  have hbank : GPIO_BANK offset < aspeed_sgpio_banks.length := by
    rw [hlen, GPIO_BANK_eq_div]
    omega
  refine ⟨hlen, hbank, ⟨aspeed_sgpio_banks[GPIO_BANK offset], ?_⟩, ?_⟩
  · unfold to_bank
    exact List.getElem?_eq_getElem hbank
  · intro h gpio n hmem
    obtain ⟨w4, w5, hl, _⟩ := aspeed_sgpio_irq_handler_fst h gpio
    rw [hl] at hmem
    rw [hn]
    rcases List.mem_append.mp hmem with h3 | h45
    · have := pending_pins_range _ _ _ h3
      omega
    · rcases List.mem_append.mp h45 with h4 | h5
      · have := pending_pins_range _ _ _ h4
        omega
      · have := pending_pins_range _ _ _ h5
        omega

/-- Witness for C26: pin 191, the last pin of the AST2500 configuration. -/
theorem shipped_pins_in_table_witness :
    191 < ast2500_config.nr_gpios ∧
    aspeed_sgpio_banks.length = 6 ∧
    GPIO_BANK 191 < aspeed_sgpio_banks.length ∧
    (∃ bank, to_bank 191 = some bank) ∧
    ∀ (h : Nat → aspeed_sgpio → aspeed_sgpio) (gpio : aspeed_sgpio),
      ∀ n ∈ (aspeed_sgpio_irq_handler h gpio).1, n < ast2500_config.nr_gpios :=
  ⟨by decide, shipped_pins_in_table ast2500_config (Or.inr rfl) 191 (by decide)⟩

/-! ## Control register word -/

theorem ASPEED_SGPIO_CLK_DIV_MASK_eq : ASPEED_SGPIO_CLK_DIV_MASK = 0xffff0000 := by decide

theorem ASPEED_SGPIO_PINBYTES_MASK_eq : ASPEED_SGPIO_PINBYTES_MASK = 0x3c0 := by decide

theorem bf_shf_clk_div : bf_shf 0xffff0000 = 16 := by decide

theorem bf_shf_pinbytes : bf_shf 0x3c0 = 6 := by decide

theorem testBit_clk_div_mask (i : Nat) :
    (4294901760 : Nat).testBit i = (decide (16 ≤ i) && decide (i < 32)) := by
  have h : (4294901760 : Nat) = (2 ^ 16 - 1) <<< 16 := by decide
  rw [h, Nat.testBit_shiftLeft, Nat.testBit_two_pow_sub_one]
  by_cases h1 : 16 ≤ i <;> by_cases h2 : i < 32 <;> simp [h1, h2] <;> omega

theorem testBit_pinbytes_mask (i : Nat) :
    (960 : Nat).testBit i = (decide (6 ≤ i) && decide (i < 10)) := by
  have h : (960 : Nat) = (2 ^ 4 - 1) <<< 6 := by decide
  rw [h, Nat.testBit_shiftLeft, Nat.testBit_two_pow_sub_one]
  by_cases h1 : 6 ≤ i <;> by_cases h2 : i < 10 <;> simp [h1, h2] <;> omega

theorem testBit_one_eq (i : Nat) : (1 : Nat).testBit i = decide (i = 0) := by
  have h : (1 : Nat) = 2 ^ 0 := by norm_num
  rw [h, Nat.testBit_two_pow]
  by_cases hi : i = 0 <;> simp [hi, eq_comm]

/-- Bits of the control word: bit 0 is the enable bit, bits 6 to 9 carry the
byte count, bits 16 to 31 the divisor, and every other bit is clear. -/
theorem probe_ctrl_word_testBit (d b i : Nat) :
    (probe_ctrl_word d b).testBit i =
      (decide (i = 0) || (decide (6 ≤ i ∧ i < 10) && b.testBit (i - 6)) ||
        (decide (16 ≤ i ∧ i < 32) && d.testBit (i - 16))) := by
  have h32 : (2 : Nat) ^ 32 = 4294967296 := by norm_num
  simp only [probe_ctrl_word, FIELD_PREP, ASPEED_SGPIO_CLK_DIV_MASK_eq,
    ASPEED_SGPIO_PINBYTES_MASK_eq, bf_shf_clk_div, bf_shf_pinbytes, ASPEED_SGPIO_ENABLE, BIT,
    BITS_PER_LONG, h32, Nat.testBit_or, Nat.testBit_and, testBit_mod32, Nat.testBit_shiftLeft,
    testBit_clk_div_mask, testBit_pinbytes_mask, Nat.shiftLeft_zero, testBit_one_eq]
  by_cases h0 : i = 0
  · subst h0
    simp
  · by_cases h6 : 6 ≤ i <;> by_cases h10 : i < 10 <;> by_cases h16 : 16 ≤ i <;>
      by_cases h32 : i < 32 <;> simp [h0, h6, h10, h16, h32] <;> omega

theorem testBit_of_lt_two_pow (x n j : Nat) (hx : x < 2 ^ n) (hj : n ≤ j) :
    x.testBit j = false :=
  Nat.testBit_lt_two_pow (lt_of_lt_of_le hx (Nat.pow_le_pow_right (by decide) hj))

/-- C24: for every divisor d up to 65535 and frame-byte count b up to 10 (in
particular every d in [1, 65535] and b in [1, 10]), the word the probe writes
to the control register at offset 0x54 is a 32-bit word with bits 31..16 equal
to d, bits 9..6 equal to b, bit 0 set and every other bit clear; masking with
the field masks and shifting recovers d and b. -/
theorem ctrl_word_fields (d b : Nat) (hd : d ≤ 65535) (hb : b ≤ 10) :
    probe_ctrl_word d b < 2 ^ 32 ∧
    probe_ctrl_word d b >>> 16 = d ∧
    (probe_ctrl_word d b >>> 6) % 2 ^ 4 = b ∧
    (probe_ctrl_word d b).testBit 0 = true ∧
    (∀ i, i ≠ 0 → ¬ (6 ≤ i ∧ i ≤ 9) → ¬ (16 ≤ i ∧ i ≤ 31) →
      (probe_ctrl_word d b).testBit i = false) ∧
    (probe_ctrl_word d b &&& ASPEED_SGPIO_CLK_DIV_MASK) >>> 16 = d ∧
    (probe_ctrl_word d b &&& ASPEED_SGPIO_PINBYTES_MASK) >>> 6 = b ∧
    (∀ (gpio : aspeed_sgpio) (src_freq sgpio_freq : Nat),
      probe_clk_div src_freq sgpio_freq = some d → probe_nb_gpios gpio.config = b →
      ∃ g, probe_write_ctrl gpio src_freq sgpio_freq = some g ∧
        g.trace = gpio.trace ++ [RegAccess.wr (probe_ctrl_word d b) ASPEED_SGPIO_CTRL] ∧
        g.regs ASPEED_SGPIO_CTRL = probe_ctrl_word d b) := by
  have hd16 : d < 2 ^ 16 := by
    have h : (2 : Nat) ^ 16 = 65536 := by norm_num
    omega
  have hb4 : b < 2 ^ 4 := by
    have h : (2 : Nat) ^ 4 = 16 := by norm_num
    omega
  have hlt : probe_ctrl_word d b < 2 ^ 32 := by
    apply Nat.lt_pow_two_of_testBit
    intro i hi
    rw [probe_ctrl_word_testBit]
    have h1 : ¬ i = 0 := by omega
    have h2 : ¬ (6 ≤ i ∧ i < 10) := by omega
    have h3 : ¬ (16 ≤ i ∧ i < 32) := by omega
    simp [h1, h2, h3]
  refine ⟨hlt, ?_, ?_, ?_, ?_, ?_, ?_, ?_⟩
  · apply Nat.eq_of_testBit_eq
    intro j
    rw [Nat.testBit_shiftRight, probe_ctrl_word_testBit]
    by_cases hj : j < 16
    · have h1 : ¬ 16 + j = 0 := by omega
      have h2 : ¬ (6 ≤ 16 + j ∧ 16 + j < 10) := by omega
      have h3 : 16 ≤ 16 + j ∧ 16 + j < 32 := by omega
      simp [h1, h2, h3]
    · have h1 : ¬ 16 + j = 0 := by omega
      have h2 : ¬ (6 ≤ 16 + j ∧ 16 + j < 10) := by omega
      have h3 : ¬ (16 ≤ 16 + j ∧ 16 + j < 32) := by omega
      simp [h1, h2, h3, testBit_of_lt_two_pow d 16 j hd16 (by omega)]
  · apply Nat.eq_of_testBit_eq
    intro j
    rw [Nat.testBit_mod_two_pow, Nat.testBit_shiftRight, probe_ctrl_word_testBit]
    by_cases hj : j < 4
    · have h1 : ¬ 6 + j = 0 := by omega
      have h2 : 6 ≤ 6 + j ∧ 6 + j < 10 := by omega
      have h3 : ¬ (16 ≤ 6 + j ∧ 6 + j < 32) := by omega
      simp [hj, h1, h2, h3]
    · simp [hj, testBit_of_lt_two_pow b 4 j hb4 (by omega)]
  · rw [probe_ctrl_word_testBit]
    simp
  · intro i h0 h6 h16
    rw [probe_ctrl_word_testBit]
    have h2 : ¬ (6 ≤ i ∧ i < 10) := by omega
    have h3 : ¬ (16 ≤ i ∧ i < 32) := by omega
    simp [h0, h2, h3]
  · apply Nat.eq_of_testBit_eq
    intro j
    rw [Nat.testBit_shiftRight, Nat.testBit_and, probe_ctrl_word_testBit,
      ASPEED_SGPIO_CLK_DIV_MASK_eq, testBit_clk_div_mask]
    by_cases hj : j < 16
    · have h1 : ¬ 16 + j = 0 := by omega
      have h2 : ¬ (6 ≤ 16 + j ∧ 16 + j < 10) := by omega
      have h3 : 16 ≤ 16 + j ∧ 16 + j < 32 := by omega
      simp [h1, h2, h3]
    · have h3 : ¬ (16 + j < 32) := by omega
      simp [h3, testBit_of_lt_two_pow d 16 j hd16 (by omega)]
  · apply Nat.eq_of_testBit_eq
    intro j
    rw [Nat.testBit_shiftRight, Nat.testBit_and, probe_ctrl_word_testBit,
      ASPEED_SGPIO_PINBYTES_MASK_eq, testBit_pinbytes_mask]
    by_cases hj : j < 4
    · have h1 : ¬ 6 + j = 0 := by omega
      have h2 : 6 ≤ 6 + j ∧ 6 + j < 10 := by omega
      have h3 : ¬ (16 ≤ 6 + j ∧ 6 + j < 32) := by omega
      simp [h1, h2, h3]
    · have h3 : ¬ (6 + j < 10) := by omega
      simp [h3, testBit_of_lt_two_pow b 4 j hb4 (by omega)]
  · intro gpio src_freq sgpio_freq hclk hnb
    have hmod : probe_ctrl_word d b % 2 ^ 32 = probe_ctrl_word d b := Nat.mod_eq_of_lt hlt
    refine ⟨iowrite32 (probe_ctrl_word d b) ASPEED_SGPIO_CTRL gpio, ?_, ?_, ?_⟩
    · simp only [probe_write_ctrl, hclk, hnb]
    · simp only [iowrite32, hmod]
    · simp only [iowrite32, hmod]
      simp [hw_store, aspeed_sgpio_banks, List.find?, ASPEED_SGPIO_CTRL, GPIO_IRQ_STATUS]

/-- Witness for C24: the shipped configuration on a 24 MHz source with a 1 MHz
bus: divisor 11 and byte count 10 give the word 0x000b0281. -/
theorem ctrl_word_fields_witness :
    probe_ctrl_word 11 10 = 0x000b0281 ∧
    probe_ctrl_word 11 10 < 2 ^ 32 ∧
    probe_ctrl_word 11 10 >>> 16 = 11 ∧
    (probe_ctrl_word 11 10 >>> 6) % 2 ^ 4 = 10 ∧
    (probe_ctrl_word 11 10).testBit 0 = true :=
  ⟨by decide,
   (ctrl_word_fields 11 10 (by decide) (by decide)).1,
   (ctrl_word_fields 11 10 (by decide) (by decide)).2.1,
   (ctrl_word_fields 11 10 (by decide) (by decide)).2.2.1,
   (ctrl_word_fields 11 10 (by decide) (by decide)).2.2.2.1⟩

/-! ## Register windows of the bank table -/

/-- A write changes the register window at most at its target offset. -/
theorem hw_store_frame (regs : Nat → Nat) (v a x : Nat) (hx : x ≠ write_target a) :
    hw_store regs v a x = regs x := by
  unfold write_target at hx
  unfold hw_store
  cases hf : aspeed_sgpio_banks.find? (fun b => b.val_reg == a) with
  | some b =>
    rw [hf] at hx
    simp [hx]
  | none =>
    rw [hf] at hx
    simp only []
    split_ifs <;> simp [hx]

theorem mem_all_regs (r : aspeed_sgpio_reg) : r ∈ all_regs := by
  cases r <;> simp [all_regs]

set_option maxRecDepth 100000 in
/-- The table by index: banks `i` and `j` carry the same offsets when
`i % 3 = j % 3`, and otherwise no register of one is a register of the other or
the target of a write to a register of the other. -/
theorem banks_windows_fin (i j : Fin aspeed_sgpio_banks.length) :
    (i.val % 3 = j.val % 3 →
      (aspeed_sgpio_banks.get i).val_reg = (aspeed_sgpio_banks.get j).val_reg ∧
      (aspeed_sgpio_banks.get i).rdata_reg = (aspeed_sgpio_banks.get j).rdata_reg ∧
      (aspeed_sgpio_banks.get i).tolerance_reg = (aspeed_sgpio_banks.get j).tolerance_reg ∧
      (aspeed_sgpio_banks.get i).irq_regs = (aspeed_sgpio_banks.get j).irq_regs) ∧
    (i.val % 3 ≠ j.val % 3 →
      ∀ r1 ∈ all_regs, ∀ r2 ∈ all_regs,
        bank_reg (aspeed_sgpio_banks.get i) r1 ≠ bank_reg (aspeed_sgpio_banks.get j) r2 ∧
        write_target (bank_reg (aspeed_sgpio_banks.get i) r1) ≠
          bank_reg (aspeed_sgpio_banks.get j) r2) := by
  revert i j
  decide

/-- Counterexample to C25 as stated: bank indices 0 and 3 are distinct and
carry the same four offsets, and setting the tolerance bit of pin 5 (bank 0)
changes the tolerance register of bank 3. -/
theorem banks_zero_and_three_share_window :
    aspeed_sgpio_banks[0]? =
      some ⟨0x0000, 0x0070, 0x0018, 0x0004, false, ["OA", "OB", "OC", "OD"]⟩ ∧
    aspeed_sgpio_banks[3]? =
      some ⟨0x0000, 0x0070, 0x0018, 0x0004, true, ["IA", "IB", "IC", "ID"]⟩ ∧
    to_bank 5 = aspeed_sgpio_banks[0]? ∧
    (fresh_gpio ast_sgpio_bank_props 0).regs
      (bank_reg ⟨0x0000, 0x0070, 0x0018, 0x0004, true, ["IA", "IB", "IC", "ID"]⟩
        aspeed_sgpio_reg.reg_tolerance) = 0 ∧
    (aspeed_sgpio_reset_tolerance (fresh_gpio ast_sgpio_bank_props 0) 5 true).map
      (fun r => r.2.regs
        (bank_reg ⟨0x0000, 0x0070, 0x0018, 0x0004, true, ["IA", "IB", "IC", "ID"]⟩
          aspeed_sgpio_reg.reg_tolerance)) = some 0x20 := by
  refine ⟨by decide, by decide, by decide, rfl, by decide⟩

/-- C25 (amended): the bank table has two descriptors per register window:
bank indices that agree modulo 3 (i and i + 3) carry the same current-value,
write-latch, tolerance and interrupt-group offsets, and for bank indices that
differ modulo 3 no register of one bank is a register of the other, so a
register write for one bank never changes a register of the other. -/
theorem banks_window_sharing (i j : Nat) (bi bj : aspeed_sgpio_bank)
    (hi : aspeed_sgpio_banks[i]? = some bi) (hj : aspeed_sgpio_banks[j]? = some bj) :
    (i % 3 = j % 3 →
      bi.val_reg = bj.val_reg ∧ bi.rdata_reg = bj.rdata_reg ∧
      bi.tolerance_reg = bj.tolerance_reg ∧ bi.irq_regs = bj.irq_regs) ∧
    (i % 3 ≠ j % 3 →
      (∀ r1 r2, bank_reg bi r1 ≠ bank_reg bj r2) ∧
      ∀ (gpio : aspeed_sgpio) (v : Nat) (r1 r2 : aspeed_sgpio_reg),
        (iowrite32 v (bank_reg bi r1) gpio).regs (bank_reg bj r2) =
          gpio.regs (bank_reg bj r2)) := by
  obtain ⟨hi2, rfl⟩ := List.getElem?_eq_some.mp hi
  obtain ⟨hj2, rfl⟩ := List.getElem?_eq_some.mp hj
  have hfin := banks_windows_fin ⟨i, hi2⟩ ⟨j, hj2⟩
  simp only [List.get_eq_getElem] at hfin
  refine ⟨hfin.1, ?_⟩
  intro hne
  refine ⟨fun r1 r2 => (hfin.2 hne r1 (mem_all_regs r1) r2 (mem_all_regs r2)).1, ?_⟩
  intro gpio v r1 r2
  simp only [iowrite32]
  exact hw_store_frame _ _ _ _
    (fun e => (hfin.2 hne r1 (mem_all_regs r1) r2 (mem_all_regs r2)).2 e.symm)

/-- Witness for C25 (amended): banks 1 and 4 share their window, banks 1 and 3
do not. -/
theorem banks_window_sharing_witness :
    aspeed_sgpio_banks[1]? =
      some ⟨0x001C, 0x0074, 0x0034, 0x0020, false, ["OE", "OF", "OG", "OH"]⟩ ∧
    aspeed_sgpio_banks[4]? =
      some ⟨0x001C, 0x0074, 0x0034, 0x0020, true, ["IE", "IF", "IG", "IH"]⟩ ∧
    aspeed_sgpio_banks[3]? =
      some ⟨0x0000, 0x0070, 0x0018, 0x0004, true, ["IA", "IB", "IC", "ID"]⟩ ∧
    (⟨0x001C, 0x0074, 0x0034, 0x0020, false, ["OE", "OF", "OG", "OH"]⟩ :
        aspeed_sgpio_bank).val_reg =
      (⟨0x001C, 0x0074, 0x0034, 0x0020, true, ["IE", "IF", "IG", "IH"]⟩ :
        aspeed_sgpio_bank).val_reg ∧
    (∀ r1 r2,
      bank_reg ⟨0x001C, 0x0074, 0x0034, 0x0020, false, ["OE", "OF", "OG", "OH"]⟩ r1 ≠
        bank_reg ⟨0x0000, 0x0070, 0x0018, 0x0004, true, ["IA", "IB", "IC", "ID"]⟩ r2) :=
  ⟨by decide, by decide, by decide,
   ((banks_window_sharing 1 4 _ _ (by decide) (by decide)).1 (by decide)).1,
   ((banks_window_sharing 1 3 _ _ (by decide) (by decide)).2 (by decide)).1⟩

end SgpioAspeed
